import Mathlib

/-!
# SDL Pac-Man (`src/main.c`): the simulation core

A shallow embedding of the game state and of the functions `setup_game`,
`reset_characters`, `handle_input`, `is_wall`, `update_game` and the state effect of
`render_game`, followed by theorems about them.

Conventions of the embedding.

* A C `int` is a mathematical integer (`Int`).  C division and remainder truncate toward
  zero, so `/` is `Int.tdiv` and `%` is `Int.tmod`.  Every quantity of a run that starts
  with `setup_game` stays far inside the 32-bit range; signed overflow (undefined in C) is
  outside the model.
* The global variables are the fields of `Game`; a function that writes globals is a
  function `Game → Game`.
* `rand()` is an input: `update_game` takes `rnd : Fin 4 → Nat`, where `rnd i` is the value
  `rand()` returns if the loop iteration of adversary `i` calls it (each iteration calls it
  at most once, so this loses no outcome).
* Sound, `printf` and `SDL_Delay` have no effect on the game state and are left out.
-/

namespace PacGame

/-! ## Game constants (`main.c` lines 18-26) -/

def MAP_COLS : Int := 19
def MAP_ROWS : Int := 21
def TILE_SIZE : Int := 24
def SCOREBOARD_HEIGHT : Int := 60
def SCREEN_WIDTH : Int := MAP_COLS * TILE_SIZE
def SCREEN_HEIGHT : Int := MAP_ROWS * TILE_SIZE + SCOREBOARD_HEIGHT
def PACMAN_SPEED : Int := 2
def GHOST_SPEED : Int := 1
def TUNNEL_ROW : Int := 10

/-! ## Enums and structs (lines 30-43) -/

/-- The enum `Direction`, in declaration order. -/
inductive Direction where
  | DIR_UP
  | DIR_DOWN
  | DIR_LEFT
  | DIR_RIGHT
  | DIR_NONE
deriving DecidableEq, Repr

open Direction

/-- The struct `Pacman`. -/
structure Pacman where
  x : Int
  y : Int
  dir : Direction
  next_dir : Direction
  mouth_animation_timer : Int
deriving DecidableEq, Repr

/-- The struct `SDL_Color` (cosmetic). -/
structure SDL_Color where
  r : Nat
  g : Nat
  b : Nat
  a : Nat
deriving DecidableEq, Repr

/-- The struct `Ghost`. -/
structure Ghost where
  x : Int
  y : Int
  dir : Direction
  color : SDL_Color
deriving DecidableEq, Repr

/-- The array `Ghost g_ghosts[4]`: exactly four adversaries. -/
structure Ghosts where
  g0 : Ghost
  g1 : Ghost
  g2 : Ghost
  g3 : Ghost
deriving DecidableEq, Repr

/-- Array read `g_ghosts[i]`. -/
def Ghosts.get (gs : Ghosts) (i : Fin 4) : Ghost :=
  match i with
  | 0 => gs.g0
  | 1 => gs.g1
  | 2 => gs.g2
  | 3 => gs.g3

/-- Array write `g_ghosts[i] = g`. -/
def Ghosts.set (gs : Ghosts) (i : Fin 4) (g : Ghost) : Ghosts :=
  match i with
  | 0 => { gs with g0 := g }
  | 1 => { gs with g1 := g }
  | 2 => { gs with g2 := g }
  | 3 => { gs with g3 := g }

/-- The global game variables (lines 47-84): the tile grid `g_map[MAP_ROWS][MAP_COLS]`
(a list of rows), the agent, the adversaries and the four counters. -/
structure Game where
  g_map : List (List Int)
  g_pacman : Pacman
  g_ghosts : Ghosts
  g_pellets_left : Int
  g_score : Int
  g_lives : Int
  g_game_over : Int
deriving DecidableEq, Repr

/-- The initialiser of `g_map` (lines 47-69): 0 = Empty/Tunnel, 1 = Wall, 2 = Pellet. -/
def g_map_init : List (List Int) :=
  [ [1,1,1,1,1,1,1,1,1,1,1,1,1,1,1,1,1,1,1],
    [1,2,2,2,2,2,2,2,2,1,2,2,2,2,2,2,2,2,1],
    [1,2,1,1,2,1,1,1,2,1,2,1,1,1,2,1,1,2,1],
    [1,2,1,1,2,1,1,1,2,1,2,1,1,1,2,1,1,2,1],
    [1,2,2,2,2,2,2,2,2,2,2,2,2,2,2,2,2,2,1],
    [1,2,1,1,2,1,2,1,1,1,1,1,2,1,2,1,1,2,1],
    [1,2,2,2,2,1,2,2,2,1,2,2,2,1,2,2,2,2,1],
    [1,1,1,1,2,1,1,1,0,1,0,1,1,1,2,1,1,1,1],
    [0,0,0,1,2,1,0,0,0,0,0,0,0,1,2,1,0,0,0],
    [1,1,1,1,2,1,0,1,1,0,1,1,0,1,2,1,1,1,1],
    [0,2,2,2,2,0,0,1,0,0,0,1,0,0,2,2,2,2,0],
    [1,1,1,1,2,1,0,1,1,1,1,1,0,1,2,1,1,1,1],
    [0,0,0,1,2,1,0,0,0,0,0,0,0,1,2,1,0,0,0],
    [1,1,1,1,2,1,0,1,1,1,1,1,0,1,2,1,1,1,1],
    [1,2,2,2,2,2,2,2,2,1,2,2,2,2,2,2,2,2,1],
    [1,2,1,1,2,1,1,1,2,1,2,1,1,1,2,1,1,2,1],
    [1,2,2,1,2,2,2,2,2,0,2,2,2,2,2,1,2,2,1],
    [1,1,2,1,2,1,2,1,1,1,1,1,2,1,2,1,2,1,1],
    [1,2,2,2,2,1,2,2,2,1,2,2,2,1,2,2,2,2,1],
    [1,2,1,1,1,1,1,1,2,1,2,1,1,1,1,1,1,2,1],
    [1,1,1,1,1,1,1,1,1,1,1,1,1,1,1,1,1,1,1] ]

/-- A zero-initialised `Ghost` (static storage). -/
def ghost_zero : Ghost := ⟨0, 0, DIR_UP, ⟨0, 0, 0, 0⟩⟩

/-- The globals as the program starts (lines 47-84): the built-in grid, zeroed structs,
`g_pellets_left = 0`, `g_score = 0`, `g_lives = 3`, `g_game_over = 0`. -/
def g_initial : Game :=
  { g_map := g_map_init
    g_pacman := ⟨0, 0, DIR_UP, DIR_UP, 0⟩
    g_ghosts := ⟨ghost_zero, ghost_zero, ghost_zero, ghost_zero⟩
    g_pellets_left := 0
    g_score := 0
    g_lives := 3
    g_game_over := 0 }

/-- Array read `g_map[row][col]`, used after the bounds checks of the source. -/
def g_map_at (m : List (List Int)) (row col : Int) : Int :=
  (m.getD row.toNat []).getD col.toNat 0

/-- Array write `g_map[row][col] = v`. -/
def g_map_set (m : List (List Int)) (row col : Int) (v : Int) : List (List Int) :=
  m.set row.toNat ((m.getD row.toNat []).set col.toNat v)

/-! ## `reset_characters` and `setup_game` (lines 198-222) -/

/-- The function `reset_characters` (lines 211-222). -/
def reset_characters (s : Game) : Game :=
  { s with
    g_pacman :=
      { x := 9 * TILE_SIZE + TILE_SIZE.tdiv 2
        y := (16 * TILE_SIZE + TILE_SIZE.tdiv 2) + SCOREBOARD_HEIGHT
        dir := DIR_RIGHT
        next_dir := DIR_RIGHT
        mouth_animation_timer := 0 }
    g_ghosts :=
      { g0 := ⟨9 * TILE_SIZE + TILE_SIZE.tdiv 2,
               (8 * TILE_SIZE + TILE_SIZE.tdiv 2) + SCOREBOARD_HEIGHT, DIR_LEFT,
               ⟨255, 0, 0, 255⟩⟩
        g1 := ⟨9 * TILE_SIZE + TILE_SIZE.tdiv 2,
               (10 * TILE_SIZE + TILE_SIZE.tdiv 2) + SCOREBOARD_HEIGHT, DIR_RIGHT,
               ⟨255, 184, 222, 255⟩⟩
        g2 := ⟨8 * TILE_SIZE + TILE_SIZE.tdiv 2,
               (10 * TILE_SIZE + TILE_SIZE.tdiv 2) + SCOREBOARD_HEIGHT, DIR_UP,
               ⟨0, 255, 255, 255⟩⟩
        g3 := ⟨10 * TILE_SIZE + TILE_SIZE.tdiv 2,
               (10 * TILE_SIZE + TILE_SIZE.tdiv 2) + SCOREBOARD_HEIGHT, DIR_UP,
               ⟨255, 184, 82, 255⟩⟩ } }

/-- The counting loops of `setup_game` (lines 201-207): `acc` is `g_pellets_left`, the
outer fold runs over `r`, the inner one over `c`. -/
def count_loop (m : List (List Int)) (acc : Int) : Int :=
  (List.range MAP_ROWS.toNat).foldl
    (fun (acc : Int) (r : Nat) =>
      (List.range MAP_COLS.toNat).foldl
        (fun (acc : Int) (c : Nat) => if g_map_at m (r : Int) (c : Int) = 2 then acc + 1 else acc)
        acc)
    acc

/-- The function `setup_game` (lines 198-209). -/
def setup_game (s : Game) : Game :=
  reset_characters { s with g_pellets_left := count_loop s.g_map 0, g_score := 0 }

/-! ## `handle_input` (lines 224-239) and the state effect of `render_game` -/

/-- The key symbols `handle_input` distinguishes. -/
inductive Key where
  | SDLK_UP
  | SDLK_DOWN
  | SDLK_LEFT
  | SDLK_RIGHT
  | SDLK_OTHER
deriving DecidableEq, Repr

/-- The events `handle_input` distinguishes. -/
inductive Event where
  | SDL_QUIT
  | SDL_KEYDOWN (sym : Key)
  | SDL_OTHER
deriving DecidableEq, Repr

/-- One pass of the event loop body of `handle_input` on the game state (lines 230-237). -/
def handle_event (s : Game) (e : Event) : Game :=
  match e with
  | .SDL_KEYDOWN .SDLK_UP => { s with g_pacman := { s.g_pacman with next_dir := DIR_UP } }
  | .SDL_KEYDOWN .SDLK_DOWN => { s with g_pacman := { s.g_pacman with next_dir := DIR_DOWN } }
  | .SDL_KEYDOWN .SDLK_LEFT => { s with g_pacman := { s.g_pacman with next_dir := DIR_LEFT } }
  | .SDL_KEYDOWN .SDLK_RIGHT => { s with g_pacman := { s.g_pacman with next_dir := DIR_RIGHT } }
  | _ => s

/-- The function `handle_input` on the game state: the queued events in order. -/
def handle_input (s : Game) (events : List Event) : Game :=
  events.foldl handle_event s

/-- The only write of `render_game` to the game state (line 399). -/
def render_game (s : Game) : Game :=
  { s with g_pacman :=
      { s.g_pacman with
        mouth_animation_timer := (s.g_pacman.mouth_animation_timer + 1).tmod 20 } }

/-! ## `is_wall` (lines 241-252) -/

/-- The function `is_wall` (lines 241-252); the result is the C `int` 0 or 1. -/
def is_wall (m : List (List Int)) (x y : Int) : Int :=
  let grid_y_map := (y - SCOREBOARD_HEIGHT).tdiv TILE_SIZE
  let grid_x := x.tdiv TILE_SIZE
  if grid_y_map = TUNNEL_ROW ∧ (grid_x < 0 ∨ grid_x ≥ MAP_COLS) then 0
  else if grid_x < 0 ∨ grid_x ≥ MAP_COLS ∨ grid_y_map < 0 ∨ grid_y_map ≥ MAP_ROWS then 1
  else if g_map_at m grid_y_map grid_x = 1 then 1 else 0

/-! ## `update_game` (lines 254-347) -/

/-- Lines 257-260: the agent advances `PACMAN_SPEED` pixels in its current direction. -/
def move_pacman (p : Pacman) : Pacman :=
  match p.dir with
  | DIR_UP => { p with y := p.y - PACMAN_SPEED }
  | DIR_DOWN => { p with y := p.y + PACMAN_SPEED }
  | DIR_LEFT => { p with x := p.x - PACMAN_SPEED }
  | DIR_RIGHT => { p with x := p.x + PACMAN_SPEED }
  | DIR_NONE => p

/-- Lines 264-268: the tunnel teleport of the agent. -/
def wrap_pacman (p : Pacman) : Pacman :=
  if p.x < (-TILE_SIZE).tdiv 2 then { p with x := SCREEN_WIDTH + TILE_SIZE.tdiv 2 }
  else if p.x > SCREEN_WIDTH + TILE_SIZE.tdiv 2 then { p with x := (-TILE_SIZE).tdiv 2 }
  else p

/-- The `check_x` / `check_y` adjustment of lines 280-285 and 293-298: the cell one step
from `(cx, cy)` in direction `d`. -/
def step_cell (d : Direction) (cx cy : Int) : Int × Int :=
  match d with
  | DIR_UP => (cx, cy - 1)
  | DIR_DOWN => (cx, cy + 1)
  | DIR_LEFT => (cx - 1, cy)
  | DIR_RIGHT => (cx + 1, cy)
  | DIR_NONE => (cx, cy)

/-- Lines 271-303: the grid-based logic of the agent (turning and stopping). -/
def steer_pacman (m : List (List Int)) (p : Pacman) : Pacman :=
  let pac_map_y := p.y - SCOREBOARD_HEIGHT
  let pac_grid_x := p.x.tdiv TILE_SIZE
  let pac_grid_y := pac_map_y.tdiv TILE_SIZE
  if p.x.tmod TILE_SIZE = TILE_SIZE.tdiv 2 ∧ pac_map_y.tmod TILE_SIZE = TILE_SIZE.tdiv 2 then
    let p1 :=
      if p.next_dir ≠ DIR_NONE then
        let c := step_cell p.next_dir pac_grid_x pac_grid_y
        if is_wall m (c.1 * TILE_SIZE) (c.2 * TILE_SIZE + SCOREBOARD_HEIGHT) = 0 then
          { p with dir := p.next_dir }
        else p
      else p
    let c := step_cell p1.dir pac_grid_x pac_grid_y
    if is_wall m (c.1 * TILE_SIZE) (c.2 * TILE_SIZE + SCOREBOARD_HEIGHT) ≠ 0 then
      { p1 with dir := DIR_NONE }
    else p1
  else p

/-- Lines 257-303: the agent's whole movement step. -/
def pacman_step (m : List (List Int)) (p : Pacman) : Pacman :=
  steer_pacman m (wrap_pacman (move_pacman p))

/-- Lines 305-316: pellet consumption, score and the win test. -/
def eat_pellets (s : Game) : Game :=
  let pac_grid_x := s.g_pacman.x.tdiv TILE_SIZE
  let pac_grid_y := (s.g_pacman.y - SCOREBOARD_HEIGHT).tdiv TILE_SIZE
  if pac_grid_x ≥ 0 ∧ pac_grid_x < MAP_COLS ∧ pac_grid_y ≥ 0 ∧ pac_grid_y < MAP_ROWS then
    if g_map_at s.g_map pac_grid_y pac_grid_x = 2 then
      let s1 : Game :=
        { s with
          g_map := g_map_set s.g_map pac_grid_y pac_grid_x 0
          g_pellets_left := s.g_pellets_left - 1
          g_score := s.g_score + 10 }
      if s1.g_pellets_left = 0 then
        { s1 with g_score := s1.g_score + 1000, g_game_over := 1 }
      else s1
    else s
  else s

/-- Lines 322-326: the array `possible` (its length is `count`). -/
def possible_dirs (m : List (List Int)) (g : Ghost) : List Direction :=
  (if is_wall m g.x (g.y - TILE_SIZE) = 0 ∧ g.dir ≠ DIR_DOWN then [DIR_UP] else []) ++
  (if is_wall m g.x (g.y + TILE_SIZE) = 0 ∧ g.dir ≠ DIR_UP then [DIR_DOWN] else []) ++
  (if is_wall m (g.x - TILE_SIZE) g.y = 0 ∧ g.dir ≠ DIR_RIGHT then [DIR_LEFT] else []) ++
  (if is_wall m (g.x + TILE_SIZE) g.y = 0 ∧ g.dir ≠ DIR_LEFT then [DIR_RIGHT] else [])

/-- Lines 320-328: the direction choice of an adversary; `r` is the value of `rand()`. -/
def choose_dir (m : List (List Int)) (g : Ghost) (r : Nat) : Ghost :=
  let ghost_map_y := g.y - SCOREBOARD_HEIGHT
  if g.x.tmod TILE_SIZE = TILE_SIZE.tdiv 2 ∧
      ghost_map_y.tmod TILE_SIZE = TILE_SIZE.tdiv 2 then
    let possible := possible_dirs m g
    let count := possible.length
    if count > 0 then { g with dir := possible.getD (r % count) g.dir } else g
  else g

/-- Lines 330-333: the adversary advances `GHOST_SPEED` pixels. -/
def advance_ghost (g : Ghost) : Ghost :=
  match g.dir with
  | DIR_UP => { g with y := g.y - GHOST_SPEED }
  | DIR_DOWN => { g with y := g.y + GHOST_SPEED }
  | DIR_LEFT => { g with x := g.x - GHOST_SPEED }
  | DIR_RIGHT => { g with x := g.x + GHOST_SPEED }
  | DIR_NONE => g

/-- Lines 335-336: the tunnel teleport of an adversary (two separate `if`s). -/
def wrap_ghost (g : Ghost) : Ghost :=
  let g1 := if g.x < (-TILE_SIZE).tdiv 2 then { g with x := SCREEN_WIDTH + TILE_SIZE.tdiv 2 }
            else g
  if g1.x > SCREEN_WIDTH + TILE_SIZE.tdiv 2 then { g1 with x := (-TILE_SIZE).tdiv 2 } else g1

/-- Lines 320-336: the whole movement step of one adversary. -/
def move_ghost (m : List (List Int)) (g : Ghost) (r : Nat) : Ghost :=
  wrap_ghost (advance_ghost (choose_dir m g r))

/-- The struct `SDL_Rect`. -/
structure SDL_Rect where
  x : Int
  y : Int
  w : Int
  h : Int
deriving DecidableEq, Repr

/-- Model of the SDL2 library function `SDL_HasIntersection` (external to this repository):
two rectangles intersect when neither is empty and the intersection of their extents has
positive length on both axes. -/
def SDL_HasIntersection (A B : SDL_Rect) : Bool :=
  if A.w ≤ 0 ∨ A.h ≤ 0 ∨ B.w ≤ 0 ∨ B.h ≤ 0 then false
  else if min (A.x + A.w) (B.x + B.w) ≤ max A.x B.x then false
  else if min (A.y + A.h) (B.y + B.h) ≤ max A.y B.y then false
  else true

/-- Line 338: the agent's collision box. -/
def pac_rect (p : Pacman) : SDL_Rect :=
  ⟨p.x - TILE_SIZE.tdiv 2 + 4, p.y - TILE_SIZE.tdiv 2 + 4, TILE_SIZE - 8, TILE_SIZE - 8⟩

/-- Line 339: an adversary's collision box. -/
def ghost_rect (g : Ghost) : SDL_Rect :=
  ⟨g.x - TILE_SIZE.tdiv 2 + 4, g.y - TILE_SIZE.tdiv 2 + 4, TILE_SIZE - 8, TILE_SIZE - 8⟩

/-- Lines 338-340: the collision test between the agent and an adversary. -/
def collides (p : Pacman) (g : Ghost) : Bool :=
  SDL_HasIntersection (pac_rect p) (ghost_rect g)

/-- Lines 320-336 on the game state: adversary `i` makes its movement step. -/
def ghost_move (rnd : Fin 4 → Nat) (s : Game) (i : Fin 4) : Game :=
  { s with g_ghosts := s.g_ghosts.set i (move_ghost s.g_map (s.g_ghosts.get i) (rnd i)) }

/-- Lines 338-345: the collision test of iteration `i` and its consequences. -/
def handle_collision (s : Game) (i : Fin 4) : Game :=
  if collides s.g_pacman (s.g_ghosts.get i) then
    let s1 : Game := { s with g_lives := s.g_lives - 1 }
    if s1.g_lives > 0 then reset_characters s1 else { s1 with g_game_over := 1 }
  else s

/-- Lines 319-346: the body of the adversary loop for index `i`. -/
def ghost_iter (rnd : Fin 4 → Nat) (s : Game) (i : Fin 4) : Game :=
  handle_collision (ghost_move rnd s i) i

/-- Lines 257-316: the agent's part of `update_game`. -/
def pacman_part (s : Game) : Game :=
  eat_pellets { s with g_pacman := pacman_step s.g_map s.g_pacman }

/-- The function `update_game` (lines 254-347). -/
def update_game (s : Game) (rnd : Fin 4 → Nat) : Game :=
  [0, 1, 2, 3].foldl (ghost_iter rnd) (pacman_part s)

/-! ## The main loop (lines 107-115) -/

/-- The states the program can be in: the state after `setup_game`, and from any such state
the state after `handle_input`, after `update_game` and after `render_game`.  The order of
the three calls in the loop body and the loop's test of `g_game_over` only restrict these
states further, so a property of all of them holds throughout every run of `main`. -/
inductive Reachable : Game → Prop where
  | setup : Reachable (setup_game g_initial)
  | input (s : Game) (events : List Event) : Reachable s → Reachable (handle_input s events)
  | tick (s : Game) (rnd : Fin 4 → Nat) : Reachable s → Reachable (update_game s rnd)
  | render (s : Game) : Reachable s → Reachable (render_game s)

/-! ## Notions used to state the properties -/

/-- The cell `(column, row)` that lines 306-307 derive from the agent's position. -/
def pac_cell (p : Pacman) : Int × Int :=
  (p.x.tdiv TILE_SIZE, (p.y - SCOREBOARD_HEIGHT).tdiv TILE_SIZE)

/-- The cell `(col, row)` is inside the grid (the test of line 308). -/
def in_grid (col row : Int) : Prop :=
  col ≥ 0 ∧ col < MAP_COLS ∧ row ≥ 0 ∧ row < MAP_ROWS

instance (col row : Int) : Decidable (in_grid col row) := by
  unfold in_grid; infer_instance

/-- The agent at `p` stands on an in-bounds cell that holds a Pellet (lines 308-309). -/
def on_pellet (m : List (List Int)) (p : Pacman) : Prop :=
  in_grid (pac_cell p).1 (pac_cell p).2 ∧ g_map_at m (pac_cell p).2 (pac_cell p).1 = 2

instance (m : List (List Int)) (p : Pacman) : Decidable (on_pellet m p) := by
  unfold on_pellet; infer_instance

/-- The number of cells of the 21 x 19 grid that hold the Pellet value 2. -/
def pellet_tiles (m : List (List Int)) : Nat :=
  ((Finset.range 21 ×ˢ Finset.range 19).filter (fun rc => g_map_at m rc.1 rc.2 = 2)).card

/-- The horizontal range `[-TILE_SIZE/2, SCREEN_WIDTH + TILE_SIZE/2]`. -/
def x_ok (x : Int) : Prop :=
  (-TILE_SIZE).tdiv 2 ≤ x ∧ x ≤ SCREEN_WIDTH + TILE_SIZE.tdiv 2

instance (x : Int) : Decidable (x_ok x) := by
  unfold x_ok; infer_instance

/-- The agent and all four adversaries are inside the horizontal range. -/
def all_x_ok (s : Game) : Prop :=
  x_ok s.g_pacman.x ∧ ∀ i : Fin 4, x_ok (s.g_ghosts.get i).x

instance (s : Game) : Decidable (all_x_ok s) := by
  unfold all_x_ok; infer_instance

/-- The state before iteration `i` of the adversary loop of the tick from `s`. -/
def loop_state (rnd : Fin 4 → Nat) (s : Game) (i : Fin 4) : Game :=
  (([0, 1, 2, 3] : List (Fin 4)).take i.val).foldl (ghost_iter rnd) (pacman_part s)

/-- Iteration `i` of the adversary loop of the tick from `s` detects a collision: the test
of line 340 holds after adversary `i` has made its movement step. -/
def hit (rnd : Fin 4 → Nat) (s : Game) (i : Fin 4) : Bool :=
  let t := ghost_move rnd (loop_state rnd s i) i
  collides t.g_pacman (t.g_ghosts.get i)

/-- The number of adversaries whose iteration detects a collision in the tick from `s`. -/
def hit_count (rnd : Fin 4 → Nat) (s : Game) : Nat :=
  (([0, 1, 2, 3] : List (Fin 4)).filter (fun i => hit rnd s i)).length

/-- One pass of the main loop body (lines 111-113). -/
def frame (s : Game) (events : List Event) (rnd : Fin 4 → Nat) : Game :=
  render_game (update_game (handle_input s events) rnd)

/-! ## Concrete states used to exercise the theorems -/

/-- A grid without walls whose only Pellet is at row 1, column 1. -/
def single_pellet_map : List (List Int) :=
  g_map_set (List.replicate 21 (List.replicate 19 0)) 1 1 2

/-- One pellet left at cell (1, 1); the agent is on the left edge of the adjacent cell
(column 2) and moves left; the adversaries are at their start positions. -/
def single_pellet_state : Game :=
  { g_map := single_pellet_map
    g_pacman := ⟨48, 96, DIR_LEFT, DIR_LEFT, 0⟩
    g_ghosts := (reset_characters g_initial).g_ghosts
    g_pellets_left := 1
    g_score := 0
    g_lives := 3
    g_game_over := 0 }

/-- The state after `setup_game` with the agent moved to the right edge of its start cell,
one step before the pellet at row 16, column 10. -/
def before_pellet_state : Game :=
  { setup_game g_initial with g_pacman := ⟨238, 456, DIR_RIGHT, DIR_RIGHT, 0⟩ }

/-- The last life: the agent rests on its start cell and adversaries 0 and 1 approach it from
the left and from the right, both within collision distance after their step. -/
def double_hit_state : Game :=
  { setup_game g_initial with
    g_pacman := ⟨228, 456, DIR_NONE, DIR_NONE, 0⟩
    g_ghosts :=
      { (setup_game g_initial).g_ghosts with
        g0 := ⟨220, 456, DIR_RIGHT, ⟨255, 0, 0, 255⟩⟩
        g1 := ⟨236, 456, DIR_LEFT, ⟨255, 184, 222, 255⟩⟩ }
    g_lives := 1 }

/-- Three lives: adversary 0 is one cell to the right of the agent's start cell and moves
left, toward the agent. -/
def early_hit_state : Game :=
  { setup_game g_initial with
    g_ghosts :=
      { (setup_game g_initial).g_ghosts with g0 := ⟨240, 456, DIR_LEFT, ⟨255, 0, 0, 255⟩⟩ } }

/-- Iteration `i` of the tick from `s` detects a collision and lives remain after the
decrement (the branch of line 343). -/
def reset_at (rnd : Fin 4 → Nat) (s : Game) (i : Fin 4) : Prop :=
  hit rnd s i = true ∧ (loop_state rnd s i).g_lives - 1 > 0

instance (rnd : Fin 4 → Nat) (s : Game) (i : Fin 4) : Decidable (reset_at rnd s i) := by
  unfold reset_at; infer_instance

/-- The agent and all four adversaries of `s` have exactly the coordinates and directions
that `reset_characters` assigns. -/
def at_start (s : Game) : Prop :=
  s.g_pacman.x = (reset_characters s).g_pacman.x ∧
  s.g_pacman.y = (reset_characters s).g_pacman.y ∧
  s.g_pacman.dir = (reset_characters s).g_pacman.dir ∧
  ∀ j : Fin 4,
    (s.g_ghosts.get j).x = ((reset_characters s).g_ghosts.get j).x ∧
    (s.g_ghosts.get j).y = ((reset_characters s).g_ghosts.get j).y ∧
    (s.g_ghosts.get j).dir = ((reset_characters s).g_ghosts.get j).dir

instance (s : Game) : Decidable (at_start s) := by
  unfold at_start; infer_instance

/-! ## Positions and cells -/

/-- The position `(x, y)` maps, by `x / TILE_SIZE` and `(y - SCOREBOARD_HEIGHT) / TILE_SIZE`,
to a cell inside the grid or to a cell on `TUNNEL_ROW`. -/
def on_grid_or_tunnel (x y : Int) : Prop :=
  in_grid (x.tdiv TILE_SIZE) ((y - SCOREBOARD_HEIGHT).tdiv TILE_SIZE) ∨
  (y - SCOREBOARD_HEIGHT).tdiv TILE_SIZE = TUNNEL_ROW

instance (x y : Int) : Decidable (on_grid_or_tunnel x y) := by
  unfold on_grid_or_tunnel; infer_instance

/-- Every entity (the agent and each of the four adversaries) is on a cell inside the grid
or on a cell of `TUNNEL_ROW`. -/
def all_on_grid_or_tunnel (s : Game) : Prop :=
  on_grid_or_tunnel s.g_pacman.x s.g_pacman.y ∧
  ∀ i : Fin 4, on_grid_or_tunnel (s.g_ghosts.get i).x (s.g_ghosts.get i).y

instance (s : Game) : Decidable (all_on_grid_or_tunnel s) := by
  unfold all_on_grid_or_tunnel; infer_instance

/-- The cell `(c, r)` is passable: `is_wall`, called the way the agent calls it, returns 0. -/
def cell_free (m : List (List Int)) (c r : Int) : Prop :=
  is_wall m (c * TILE_SIZE) (r * TILE_SIZE + SCOREBOARD_HEIGHT) = 0

/-- The grid `m` has its walls where the built-in grid has them. -/
def walls_kept (m : List (List Int)) : Prop :=
  ∀ c r : Int, cell_free m c r ↔ cell_free g_map_init c r

/-- The agent is on the centre of the passable cell `(c, r)`, and is stopped or headed for
a passable cell. -/
def at_centre (m : List (List Int)) (p : Pacman) : Prop :=
  ∃ c r : Int, 0 ≤ c ∧ c ≤ 19 ∧ p.x = 24 * c + 12 ∧ p.y = 24 * r + 72 ∧ cell_free m c r ∧
    cell_free m (step_cell p.dir c r).1 (step_cell p.dir c r).2

/-- The agent travels horizontally between the centres of the passable cells `(c, r)` and
`(c + 1, r)`, `k` pixels past the first; `k = 0` only at `x = -12`, which the C remainder
does not treat as a centre. -/
def in_row (m : List (List Int)) (p : Pacman) : Prop :=
  ∃ c r k : Int, -1 ≤ c ∧ c ≤ 18 ∧ 0 ≤ k ∧ k < 24 ∧ k % 2 = 0 ∧ (k = 0 → c = -1) ∧
    p.x = 24 * c + 12 + k ∧ p.y = 24 * r + 72 ∧ cell_free m c r ∧ cell_free m (c + 1) r ∧
    (p.dir = DIR_LEFT ∨ p.dir = DIR_RIGHT)

/-- The agent travels vertically between the centres of the passable cells `(c, r)` and
`(c, r + 1)`, `k` pixels past the first. -/
def in_col (m : List (List Int)) (p : Pacman) : Prop :=
  ∃ c r k : Int, 0 ≤ c ∧ 0 < k ∧ k < 24 ∧ k % 2 = 0 ∧
    p.x = 24 * c + 12 ∧ p.y = 24 * r + 72 + k ∧ cell_free m c r ∧ cell_free m c (r + 1) ∧
    (p.dir = DIR_UP ∨ p.dir = DIR_DOWN)

/-- The invariant of the agent: on a cell centre, or between two adjacent passable cells. -/
def agent_inv (m : List (List Int)) (p : Pacman) : Prop :=
  at_centre m p ∨ in_row m p ∨ in_col m p

/-! ## A run in which an adversary leaves the grid -/

/-- The `rand()` values of one tick: `a` for adversary 0 and 0 for the others. -/
def rnd_first (a : Nat) : Fin 4 → Nat :=
  fun i => if i = 0 then a else 0

/-- A run of frames without input events; frame `n` uses `rnd_first` of the `n`-th draw. -/
def run_quiet (draws : List Nat) (s : Game) : Game :=
  draws.foldl (fun s a => frame s [] (rnd_first a)) s

/-- The same run, written so that every frame's state is compared with itself before the
next frame starts (this keeps the evaluation of a long run shallow). -/
def run_checked : List Nat → Game → Game
  | [], s => s
  | a :: rest, s =>
    let t := frame s [] (rnd_first a)
    if t = t then run_checked rest t else t

/-- The draws of 516 frames that take adversary 0 from its start cell (row 8, column 9)
left to column 6, down to row 14, right to column 8, down to row 16, left to column 6,
down to row 18, right to column 8 and then down into the dead end at row 19: index 1 of
`possible` at frames 0, 24 and 216, index 0 everywhere else. -/
def escape_draws : List Nat :=
  [1] ++ List.replicate 23 0 ++ [1] ++ List.replicate 191 0 ++ [1] ++ List.replicate 299 0

/-! ## Notions for the direction rules -/

instance (m : List (List Int)) (c r : Int) : Decidable (cell_free m c r) := by
  unfold cell_free; infer_instance

/-- The alignment test of lines 274-277 and 321 at the pixel position `(x, y)`:
`x % TILE_SIZE == TILE_SIZE / 2` and `(y - SCOREBOARD_HEIGHT) % TILE_SIZE == TILE_SIZE / 2`
with the C remainder. -/
def aligned (x y : Int) : Prop :=
  x.tmod TILE_SIZE = TILE_SIZE.tdiv 2 ∧
  (y - SCOREBOARD_HEIGHT).tmod TILE_SIZE = TILE_SIZE.tdiv 2

instance (x y : Int) : Decidable (aligned x y) := by
  unfold aligned; infer_instance

/-- No iteration of the adversary loop of the tick from `s` takes the reset branch. -/
def no_reset (rnd : Fin 4 → Nat) (s : Game) : Prop :=
  ∀ i : Fin 4, ¬ reset_at rnd s i

instance (rnd : Fin 4 → Nat) (s : Game) : Decidable (no_reset rnd s) := by
  unfold no_reset; infer_instance

/-- Direction `d` is the exact reverse of direction `e`. -/
def opposite (d e : Direction) : Prop :=
  (d = DIR_UP ∧ e = DIR_DOWN) ∨ (d = DIR_DOWN ∧ e = DIR_UP) ∨
  (d = DIR_LEFT ∧ e = DIR_RIGHT) ∨ (d = DIR_RIGHT ∧ e = DIR_LEFT)

instance (d e : Direction) : Decidable (opposite d e) := by
  unfold opposite; infer_instance

/-- The pixel position one tile away from the adversary `g` in direction `d`. -/
def neighbour (g : Ghost) (d : Direction) : Int × Int :=
  match d with
  | DIR_UP => (g.x, g.y - TILE_SIZE)
  | DIR_DOWN => (g.x, g.y + TILE_SIZE)
  | DIR_LEFT => (g.x - TILE_SIZE, g.y)
  | DIR_RIGHT => (g.x + TILE_SIZE, g.y)
  | DIR_NONE => (g.x, g.y)

/-- The legal set of the adversary `g`, as the specification words it: `d` is one of the four
directions, the adjacent cell one tile away in direction `d` is not a wall, and `d` is not
the exact reverse of the current direction of `g`. -/
def legal (m : List (List Int)) (g : Ghost) (d : Direction) : Prop :=
  d ≠ DIR_NONE ∧ is_wall m (neighbour g d).1 (neighbour g d).2 = 0 ∧ ¬ opposite d g.dir

instance (m : List (List Int)) (g : Ghost) (d : Direction) : Decidable (legal m g d) := by
  unfold legal; infer_instance

/-- The horizontal component of one step in direction `d`. -/
def dir_dx (d : Direction) : Int :=
  match d with
  | DIR_LEFT => -1
  | DIR_RIGHT => 1
  | _ => 0

/-- The vertical component of one step in direction `d` (the y axis points down). -/
def dir_dy (d : Direction) : Int :=
  match d with
  | DIR_UP => -1
  | DIR_DOWN => 1
  | _ => 0

/-- The reference rule of the agent's direction update at a cell centre, as the claim words
it: adopt `next_dir` if the cell one step in `next_dir` is not a wall, otherwise keep the
current direction; then stop (`DIR_NONE`) if the cell one step ahead in the resulting
direction is a wall. -/
def reference_turn (m : List (List Int)) (p : Pacman) : Direction :=
  let cx := p.x.tdiv TILE_SIZE
  let cy := (p.y - SCOREBOARD_HEIGHT).tdiv TILE_SIZE
  let d1 := if cell_free m (step_cell p.next_dir cx cy).1 (step_cell p.next_dir cx cy).2
    then p.next_dir else p.dir
  if cell_free m (step_cell d1 cx cy).1 (step_cell d1 cx cy).2 then d1 else DIR_NONE

/-- The rule lines 277-303 compute: the reference rule with the guard of line 279, under
which `next_dir` is adopted only if it is not `DIR_NONE`. -/
def guarded_turn (m : List (List Int)) (p : Pacman) : Direction :=
  let cx := p.x.tdiv TILE_SIZE
  let cy := (p.y - SCOREBOARD_HEIGHT).tdiv TILE_SIZE
  let d1 := if p.next_dir ≠ DIR_NONE ∧
      cell_free m (step_cell p.next_dir cx cy).1 (step_cell p.next_dir cx cy).2
    then p.next_dir else p.dir
  if cell_free m (step_cell d1 cx cy).1 (step_cell d1 cx cy).2 then d1 else DIR_NONE

/-! ## Notions for the invariants of a run -/

/-- The agent at `p` is not inside a wall of the grid `m`: its row `(y - 60) / 24` is within
0..20, and either its column `x / 24` is within 0..18 and `g_map[row][col]` is not the Wall
value 1, or it is on `TUNNEL_ROW` in the wraparound margin (`x` in [-12, -1] or
[456, 468]). -/
def off_walls (m : List (List Int)) (p : Pacman) : Prop :=
  0 ≤ (p.y - SCOREBOARD_HEIGHT).tdiv TILE_SIZE ∧
  (p.y - SCOREBOARD_HEIGHT).tdiv TILE_SIZE ≤ 20 ∧
  ((0 ≤ p.x.tdiv TILE_SIZE ∧ p.x.tdiv TILE_SIZE ≤ 18 ∧
      g_map_at m ((p.y - SCOREBOARD_HEIGHT).tdiv TILE_SIZE) (p.x.tdiv TILE_SIZE) ≠ 1) ∨
    ((p.y - SCOREBOARD_HEIGHT).tdiv TILE_SIZE = TUNNEL_ROW ∧
      ((-12 ≤ p.x ∧ p.x ≤ -1) ∨ (456 ≤ p.x ∧ p.x ≤ 468))))

instance (m : List (List Int)) (p : Pacman) : Decidable (off_walls m p) := by
  unfold off_walls; infer_instance

/-- The number `P` of Pellet tiles that `setup_game` counts on the built-in grid. -/
def total_pellets : Int := (setup_game g_initial).g_pellets_left

/-- The closed form of the score: 10 points per pellet eaten, plus the bonus of 1000 once no
pellet is left. -/
def score_of (left : Int) : Int :=
  10 * (total_pellets - left) + (if left = 0 then 1000 else 0)

/-- The numbers `render_game` passes to `draw_number` (lines 382-383): the score, then the
lives. -/
def render_numbers (s : Game) : List Int :=
  [s.g_score, s.g_lives]

/-- The numbers drawn in one pass of the loop body (lines 111-113): `render_game` runs right
after `update_game`; the test of `g_game_over` comes only at the top of the next pass. -/
def frame_numbers (s : Game) (events : List Event) (rnd : Fin 4 → Nat) : List Int :=
  render_numbers (update_game (handle_input s events) rnd)

/-! ## Remainders of positions -/

/-- The remainders the code computes from an entity's position, `x % TILE_SIZE` and
`(y - SCOREBOARD_HEIGHT) % TILE_SIZE` with the C remainder, are not negative. -/
def remainders_ok (x y : Int) : Prop :=
  0 ≤ x.tmod TILE_SIZE ∧ 0 ≤ (y - SCOREBOARD_HEIGHT).tmod TILE_SIZE

instance (x y : Int) : Decidable (remainders_ok x y) := by
  unfold remainders_ok; infer_instance

/-- The remainders of the agent and of all four adversaries are not negative. -/
def all_remainders_ok (s : Game) : Prop :=
  remainders_ok s.g_pacman.x s.g_pacman.y ∧
  ∀ i : Fin 4, remainders_ok (s.g_ghosts.get i).x (s.g_ghosts.get i).y

/-- The draws of 277 frames that take adversary 0 from its start cell (row 8, column 9) left
to column 6, down to the tunnel row 10 and left along it to `x = -1`: index 1 of `possible`
at frames 0, 24 and 120, index 2 at frame 168, index 0 everywhere else. -/
def tunnel_draws : List Nat :=
  [1] ++ List.replicate 23 0 ++ [1] ++ List.replicate 95 0 ++ [1] ++ List.replicate 47 0 ++
    [2] ++ List.replicate 108 0

/-! ## The cells an adversary visits -/

/-- For every cell of rows 0..20 and columns 0..19 (column 19 is the right wraparound
margin), the directions with which an adversary can stand on the centre of that cell in a
run: bit 1 for up, 2 for down, 4 for left, 8 for right.  Wall cells occur, because an
adversary whose legal set is empty walks on into the wall. -/
def adversary_cells : List (List Nat) :=
  [
    [ 0, 0, 0, 0, 0, 0, 0, 0, 0, 0, 0, 0, 0, 0, 0, 0, 0, 0, 0, 0],
    [ 0, 5,12,12,13,12,12,12, 9, 0, 5,12,12,12,13,12,12, 9, 0, 0],
    [ 0, 3, 0, 0, 3, 0, 0, 0, 3, 0, 3, 0, 0, 0, 3, 0, 0, 3, 0, 0],
    [ 0, 3, 0, 0, 3, 0, 0, 0, 3, 0, 3, 0, 0, 0, 3, 0, 0, 3, 0, 0],
    [ 0, 7,12,12,15,12,13,12,14,12,14,12,13,12,15,12,12,11, 0, 0],
    [ 0, 3, 0, 0, 3, 0, 3, 0, 0, 0, 0, 0, 3, 0, 3, 0, 0, 3, 0, 0],
    [ 0, 6,12,12,11, 0, 6,12, 9, 0, 5,12,10, 0, 7,12,12,10, 0, 0],
    [ 0, 0, 0, 0, 3, 0, 0, 0, 3, 0, 3, 0, 0, 0, 3, 0, 0, 0, 0, 0],
    [ 0, 0, 0, 0, 3, 0, 5,12,14,13,14,12, 9, 0, 3, 0, 0, 0, 0, 0],
    [ 0, 0, 0, 0, 3, 0, 3, 0, 0, 3, 0, 0, 3, 0, 3, 0, 0, 0, 0, 0],
    [12,12,12,12,15,12,15, 4, 5,14, 9, 8,15,12,15,12,12,12,12,12],
    [ 0, 0, 0, 0, 3, 0, 3, 0, 0, 0, 0, 0, 3, 0, 3, 0, 0, 0, 0, 0],
    [ 0, 0, 0, 0, 3, 0, 7,12,12,12,12,12,11, 0, 3, 0, 0, 0, 0, 0],
    [ 0, 0, 0, 0, 3, 0, 3, 0, 0, 0, 0, 0, 3, 0, 3, 0, 0, 0, 0, 0],
    [ 0, 5,12,12,15,12,14,12, 9, 0, 5,12,14,12,15,12,12, 9, 0, 0],
    [ 0, 3, 0, 0, 3, 0, 0, 0, 3, 0, 3, 0, 0, 0, 3, 0, 0, 3, 0, 0],
    [ 0, 6, 9, 0, 7,12,12,12,14,12,14,12,12,12,11, 0, 5,10, 0, 0],
    [ 0, 0, 3, 0, 3, 0, 2, 0, 0, 0, 0, 0, 2, 0, 3, 0, 3, 0, 0, 0],
    [ 0, 4, 6,12,10, 0, 2, 8, 8, 0, 4, 4, 2, 0, 6,12,10, 8, 0, 0],
    [ 0, 2, 0, 0, 0, 0, 0, 0, 2, 0, 2, 0, 0, 0, 0, 0, 0, 2, 0, 0],
    [ 0, 2, 0, 0, 0, 0, 0, 0, 2, 0, 2, 0, 0, 0, 0, 0, 0, 2, 0, 0] ]

/-- The bit of a direction in `adversary_cells`. -/
def dir_bit (d : Direction) : Nat :=
  match d with
  | DIR_UP => 1
  | DIR_DOWN => 2
  | DIR_LEFT => 4
  | DIR_RIGHT => 8
  | DIR_NONE => 0

/-- The table `adversary_cells` allows direction `d` on cell `(c, r)`. -/
def in_cells (c r : Nat) (d : Direction) : Bool :=
  ((adversary_cells.getD r []).getD c 0) / dir_bit d % 2 == 1

/-- An adversary may stand on the centre of cell `(c, r)` with direction `d`: the table
allows it, or the cell is below the grid (row 21 or more) and the direction is down. -/
def safe (c r : Int) (d : Direction) : Prop :=
  0 ≤ c ∧ c ≤ 19 ∧ 1 ≤ r ∧ d ≠ DIR_NONE ∧
  (if r ≤ 20 then in_cells c.toNat r.toNat d = true else (d = DIR_DOWN ∧ c ≤ 18))

instance (c r : Int) (d : Direction) : Decidable (safe c r d) := by
  unfold safe; infer_instance

/-- The cell on whose centre an adversary next stands when it leaves the centre of `(c, r)`
in direction `d`: the neighbouring cell, or the cell at the other end of the row when it
passes a teleport threshold. -/
def arrival (c r : Int) (d : Direction) : Int × Int :=
  match d with
  | DIR_UP => (c, r - 1)
  | DIR_DOWN => (c, r + 1)
  | DIR_LEFT => (if 1 ≤ c then c - 1 else 19, r)
  | DIR_RIGHT => (if c ≤ 18 then c + 1 else 0, r)
  | DIR_NONE => (c, r)

/-- The directions an adversary can leave the centre of `(c, r)` with on the built-in grid,
when it stands there with direction `d`: the array `possible`, or `d` alone when that is
empty. -/
def next_dirs (c r : Int) (d : Direction) : List Direction :=
  if possible_dirs g_map_init ⟨24 * c + 12, 24 * r + 72, d, ⟨0, 0, 0, 0⟩⟩ = [] then [d]
  else possible_dirs g_map_init ⟨24 * c + 12, 24 * r + 72, d, ⟨0, 0, 0, 0⟩⟩

/-- The invariant of an adversary: it stands on the centre of a cell with an allowed
direction, or it is on its way to such a centre, `k` pixels before it, or it is in the left
wraparound margin heading left, for the teleport to column 19. -/
def ghost_inv (g : Ghost) : Prop :=
  (∃ c r : Int, g.x = 24 * c + 12 ∧ g.y = 24 * r + 72 ∧ safe c r g.dir) ∨
  (g.dir = DIR_UP ∧ ∃ c r k : Int, 1 ≤ k ∧ k ≤ 23 ∧ g.x = 24 * c + 12 ∧
    g.y = 24 * r + 72 + k ∧ safe c r DIR_UP) ∨
  (g.dir = DIR_DOWN ∧ ∃ c r k : Int, 1 ≤ k ∧ k ≤ 23 ∧ g.x = 24 * c + 12 ∧
    g.y = 24 * r + 72 - k ∧ safe c r DIR_DOWN) ∨
  (g.dir = DIR_LEFT ∧ ∃ c r k : Int, 1 ≤ k ∧ k ≤ 23 ∧ c ≤ 18 ∧ g.x = 24 * c + 12 + k ∧
    g.y = 24 * r + 72 ∧ safe c r DIR_LEFT) ∨
  (g.dir = DIR_LEFT ∧ ∃ r : Int, -12 ≤ g.x ∧ g.x ≤ 11 ∧ g.y = 24 * r + 72 ∧
    safe 19 r DIR_LEFT) ∨
  (g.dir = DIR_RIGHT ∧ ∃ c r k : Int, 1 ≤ k ∧ (k ≤ 23 ∨ (c = 0 ∧ k = 24)) ∧
    g.x = 24 * c + 12 - k ∧ g.y = 24 * r + 72 ∧ safe c r DIR_RIGHT)

/-- The remainders of the position `(x, y)` are not negative, except for `x % TILE_SIZE`
while `x` is in the left wraparound margin [-12, -1], where it is `x` itself. -/
def remainders_but_margin (x y : Int) : Prop :=
  0 ≤ (y - SCOREBOARD_HEIGHT).tmod TILE_SIZE ∧
  (x.tmod TILE_SIZE < 0 ↔ (-12 ≤ x ∧ x ≤ -1)) ∧
  (x.tmod TILE_SIZE < 0 → x.tmod TILE_SIZE = x)

instance (x y : Int) : Decidable (remainders_but_margin x y) := by
  unfold remainders_but_margin; infer_instance

/-! ## Arithmetic of the C operators on the tile size -/

theorem tdiv_two_tile : TILE_SIZE.tdiv 2 = 12 := by decide

theorem tdiv_two_neg_tile : (-TILE_SIZE).tdiv 2 = -12 := by decide

/-- Truncating division by 24 in terms of floor division. -/
theorem tdiv_tile (x : Int) :
    x.tdiv 24 = if 0 ≤ x then x / 24 else -((-x) / 24) := by
  split
  · rw [Int.tdiv_eq_ediv] <;> omega
  · have h : x.tdiv 24 = -((-x).tdiv 24) := by rw [Int.neg_tdiv]; omega
    rw [h, Int.tdiv_eq_ediv] <;> omega

/-- The C remainder by 24 in terms of the non-negative remainder. -/
theorem tmod_tile (x : Int) :
    x.tmod 24 = if 0 ≤ x then x % 24 else -((-x) % 24) := by
  have h := Int.tmod_def x 24
  rw [h, tdiv_tile]
  split <;> omega

theorem tdiv_tile_mul (c : Int) : (c * 24).tdiv 24 = c := by
  rw [tdiv_tile]; split <;> omega

/-! ## `is_wall` on cell coordinates -/

/-- The value of `is_wall` at the pixel arguments the agent passes for cell `(col, row)`. -/
theorem is_wall_cell_eq (m : List (List Int)) (col row : Int) :
    is_wall m (col * TILE_SIZE) (row * TILE_SIZE + SCOREBOARD_HEIGHT) =
      if row = 10 ∧ (col < 0 ∨ col ≥ 19) then 0
      else if col < 0 ∨ col ≥ 19 ∨ row < 0 ∨ row ≥ 21 then 1
      else if g_map_at m row col = 1 then 1 else 0 := by
  have h1 : (row * 24 + 60 - 60).tdiv 24 = row := by
    have : row * 24 + 60 - 60 = row * 24 := by omega
    rw [this, tdiv_tile_mul]
  simp only [is_wall, TILE_SIZE, SCOREBOARD_HEIGHT, TUNNEL_ROW, MAP_COLS, MAP_ROWS, h1,
    tdiv_tile_mul]

/-- C7: for every integer cell `(col, row)`, `is_wall` called as the agent calls it returns 0
on `TUNNEL_ROW` when the column is outside the grid, returns 1 for every other
out-of-bounds cell, and for an in-bounds cell returns 1 exactly when `g_map[row][col]` is
the Wall value 1 (and 0 otherwise). -/
theorem is_wall_on_cells (m : List (List Int)) (col row : Int) :
    (row = TUNNEL_ROW ∧ (col < 0 ∨ col ≥ MAP_COLS) →
      is_wall m (col * TILE_SIZE) (row * TILE_SIZE + SCOREBOARD_HEIGHT) = 0) ∧
    ((col < 0 ∨ col ≥ MAP_COLS ∨ row < 0 ∨ row ≥ MAP_ROWS) ∧ row ≠ TUNNEL_ROW →
      is_wall m (col * TILE_SIZE) (row * TILE_SIZE + SCOREBOARD_HEIGHT) = 1) ∧
    (0 ≤ col ∧ col < MAP_COLS ∧ 0 ≤ row ∧ row < MAP_ROWS →
      (is_wall m (col * TILE_SIZE) (row * TILE_SIZE + SCOREBOARD_HEIGHT) = 1 ↔
        g_map_at m row col = 1) ∧
      (is_wall m (col * TILE_SIZE) (row * TILE_SIZE + SCOREBOARD_HEIGHT) = 0 ↔
        g_map_at m row col ≠ 1)) := by
  rw [is_wall_cell_eq]
  simp only [TUNNEL_ROW, MAP_COLS, MAP_ROWS]
  refine ⟨?_, ?_, ?_⟩
  · intro h
    rw [if_pos h]
  · rintro ⟨h, hr⟩
    rw [if_neg (fun h' => hr h'.1), if_pos h]
  · rintro ⟨h1, h2, h3, h4⟩
    rw [if_neg (by omega), if_neg (by omega)]
    by_cases hw : g_map_at m row col = 1 <;> simp [hw]

/-- C7 at concrete cells: left of the grid on the tunnel row, right of the grid on row 3,
the wall at row 0, column 0, and the pellet at row 1, column 1. -/
theorem is_wall_on_cells_witness :
    is_wall g_map_init (-1 * TILE_SIZE) (10 * TILE_SIZE + SCOREBOARD_HEIGHT) = 0 ∧
    is_wall g_map_init (19 * TILE_SIZE) (3 * TILE_SIZE + SCOREBOARD_HEIGHT) = 1 ∧
    is_wall g_map_init (0 * TILE_SIZE) (0 * TILE_SIZE + SCOREBOARD_HEIGHT) = 1 ∧
    is_wall g_map_init (1 * TILE_SIZE) (1 * TILE_SIZE + SCOREBOARD_HEIGHT) = 0 :=
  ⟨(is_wall_on_cells g_map_init (-1) 10).1 ⟨rfl, Or.inl (by decide)⟩,
   (is_wall_on_cells g_map_init 19 3).2.1 ⟨Or.inr (Or.inl (by decide)), by decide⟩,
   ((is_wall_on_cells g_map_init 0 0).2.2 (by decide)).1.2 (by decide),
   ((is_wall_on_cells g_map_init 1 1).2.2 (by decide)).2.2 (by decide)⟩

/-! ## The collision test -/

/-- The collision test in terms of the distance between the two positions. -/
theorem collides_true_iff (p : Pacman) (g : Ghost) :
    collides p g = true ↔ |p.x - g.x| < 16 ∧ |p.y - g.y| < 16 := by
  simp only [collides, SDL_HasIntersection, pac_rect, ghost_rect, tdiv_two_tile, TILE_SIZE,
    abs_lt]
  split_ifs with h1 h2 h3
  · omega
  · simp only [min_le_iff, le_max_iff] at h2
    constructor
    · intro h; cases h
    · omega
  · simp only [min_le_iff, le_max_iff] at h3
    constructor
    · intro h; cases h
    · omega
  · simp only [min_le_iff, le_max_iff, not_or] at h2 h3
    constructor
    · intro _; omega
    · intro _; rfl

/-- C8: the collision test of `update_game` reports a collision between the agent at
`(px, py)` and an adversary at `(gx, gy)` if and only if `|px - gx| < 16` and
`|py - gy| < 16`; a difference of exactly 16 on either axis is no collision. -/
theorem collides_iff (p : Pacman) (g : Ghost) :
    (collides p g = true ↔ |p.x - g.x| < 16 ∧ |p.y - g.y| < 16) ∧
    (|p.x - g.x| = 16 ∨ |p.y - g.y| = 16 → collides p g = false) := by
  refine ⟨collides_true_iff p g, ?_⟩
  intro h
  cases hc : collides p g with
  | false => rfl
  | true =>
    have h2 := (collides_true_iff p g).1 hc
    rcases h with h | h <;> omega

/-- C8 at concrete positions: boxes 16 pixels apart only touch. -/
theorem collides_iff_witness :
    collides ⟨100, 100, DIR_NONE, DIR_NONE, 0⟩ ⟨116, 100, DIR_NONE, ⟨0, 0, 0, 0⟩⟩ = false :=
  (collides_iff ⟨100, 100, DIR_NONE, DIR_NONE, 0⟩ ⟨116, 100, DIR_NONE, ⟨0, 0, 0, 0⟩⟩).2
    (Or.inl (by decide))

/-! ## What the adversary loop leaves alone -/

theorem update_game_eq (s : Game) (rnd : Fin 4 → Nat) :
    update_game s rnd =
      ghost_iter rnd (ghost_iter rnd (ghost_iter rnd (ghost_iter rnd (pacman_part s) 0) 1) 2) 3 := by
  simp only [update_game, List.foldl_cons, List.foldl_nil]

theorem ghost_iter_keeps (rnd : Fin 4 → Nat) (s : Game) (i : Fin 4) :
    (ghost_iter rnd s i).g_map = s.g_map ∧
    (ghost_iter rnd s i).g_pellets_left = s.g_pellets_left ∧
    (ghost_iter rnd s i).g_score = s.g_score ∧
    (s.g_game_over = 1 → (ghost_iter rnd s i).g_game_over = 1) := by
  simp only [ghost_iter, handle_collision, ghost_move, reset_characters]
  split_ifs <;> simp

theorem update_game_keeps (s : Game) (rnd : Fin 4 → Nat) :
    (update_game s rnd).g_map = (pacman_part s).g_map ∧
    (update_game s rnd).g_pellets_left = (pacman_part s).g_pellets_left ∧
    (update_game s rnd).g_score = (pacman_part s).g_score ∧
    ((pacman_part s).g_game_over = 1 → (update_game s rnd).g_game_over = 1) := by
  rw [update_game_eq]
  have h0 := ghost_iter_keeps rnd (pacman_part s) 0
  have h1 := ghost_iter_keeps rnd (ghost_iter rnd (pacman_part s) 0) 1
  have h2 := ghost_iter_keeps rnd (ghost_iter rnd (ghost_iter rnd (pacman_part s) 0) 1) 2
  have h3 := ghost_iter_keeps rnd
    (ghost_iter rnd (ghost_iter rnd (ghost_iter rnd (pacman_part s) 0) 1) 2) 3
  refine ⟨?_, ?_, ?_, ?_⟩
  · rw [h3.1, h2.1, h1.1, h0.1]
  · rw [h3.2.1, h2.2.1, h1.2.1, h0.2.1]
  · rw [h3.2.2.1, h2.2.2.1, h1.2.2.1, h0.2.2.1]
  · intro h
    exact h3.2.2.2 (h2.2.2.2 (h1.2.2.2 (h0.2.2.2 h)))

/-- The agent's part of the tick when its post-move cell holds a Pellet. -/
theorem pacman_part_on_pellet (s : Game)
    (h : on_pellet s.g_map (pacman_step s.g_map s.g_pacman)) :
    (pacman_part s).g_map =
        g_map_set s.g_map (pac_cell (pacman_step s.g_map s.g_pacman)).2
          (pac_cell (pacman_step s.g_map s.g_pacman)).1 0 ∧
    (pacman_part s).g_pellets_left = s.g_pellets_left - 1 ∧
    (pacman_part s).g_score =
        s.g_score + 10 + (if s.g_pellets_left - 1 = 0 then 1000 else 0) ∧
    (s.g_pellets_left - 1 = 0 → (pacman_part s).g_game_over = 1) ∧
    (pacman_part s).g_pacman = pacman_step s.g_map s.g_pacman := by
  obtain ⟨hb, hp⟩ := h
  simp only [in_grid, pac_cell] at hb hp
  simp only [pacman_part, eat_pellets, pac_cell]
  rw [if_pos hb, if_pos hp]
  by_cases h0 : s.g_pellets_left - 1 = 0
  · simp [h0]
  · simp [h0]

/-- The agent's part of the tick when its post-move cell holds no Pellet or lies outside
the grid. -/
theorem pacman_part_off_pellet (s : Game)
    (h : ¬ on_pellet s.g_map (pacman_step s.g_map s.g_pacman)) :
    pacman_part s = { s with g_pacman := pacman_step s.g_map s.g_pacman } := by
  simp only [on_pellet, in_grid, pac_cell, not_and] at h
  simp only [pacman_part, eat_pellets]
  by_cases hb : (pacman_step s.g_map s.g_pacman).x.tdiv TILE_SIZE ≥ 0 ∧
      (pacman_step s.g_map s.g_pacman).x.tdiv TILE_SIZE < MAP_COLS ∧
      ((pacman_step s.g_map s.g_pacman).y - SCOREBOARD_HEIGHT).tdiv TILE_SIZE ≥ 0 ∧
      ((pacman_step s.g_map s.g_pacman).y - SCOREBOARD_HEIGHT).tdiv TILE_SIZE < MAP_ROWS
  · rw [if_pos hb, if_neg (h hb)]
  · rw [if_neg hb]

/-! ## Reading and writing grid cells -/

/-- Reading a cell after a write to a cell that exists. -/
theorem g_map_at_set (m : List (List Int)) (r c r' c' : Nat) (v : Int)
    (h : g_map_at m r c ≠ 0) :
    g_map_at (g_map_set m r c v) r' c' =
      if r' = r ∧ c' = c then v else g_map_at m r' c' := by
  simp only [g_map_at, g_map_set, Int.toNat_ofNat, List.getD_eq_getElem?_getD] at h ⊢
  have hr : r < m.length := by
    by_contra hr
    have hn : m[r]? = none := List.getElem?_eq_none (by omega)
    rw [hn] at h
    simp at h
  have hc : c < (m[r]?.getD []).length := by
    by_contra hc
    have hn : (m[r]?.getD [])[c]? = none := List.getElem?_eq_none (by omega)
    rw [hn] at h
    simp at h
  rw [List.getElem?_set]
  by_cases e1 : r = r'
  · subst e1
    rw [if_pos rfl, if_pos hr]
    simp only [Option.getD_some, List.getElem?_set]
    by_cases e2 : c = c'
    · subst e2
      simp [hc]
    · have e2' : ¬ c' = c := fun h => e2 h.symm
      simp [e2, e2']
  · have e1' : ¬ r' = r := fun h => e1 h.symm
    simp [e1, e1']

/-- Eating a pellet removes exactly one cell from the set of Pellet cells. -/
theorem pellet_tiles_set (m : List (List Int)) (col row : Int)
    (hb : in_grid col row) (hp : g_map_at m row col = 2) :
    (pellet_tiles (g_map_set m row col 0) : Int) = pellet_tiles m - 1 := by
  obtain ⟨h1, h2, h3, h4⟩ := hb
  simp only [MAP_COLS, MAP_ROWS] at h2 h4
  obtain ⟨r, rfl⟩ := Int.eq_ofNat_of_zero_le h3
  obtain ⟨c, rfl⟩ := Int.eq_ofNat_of_zero_le h1
  have hne : g_map_at m r c ≠ 0 := by rw [hp]; decide
  have hmem : (r, c) ∈ (Finset.range 21 ×ˢ Finset.range 19).filter
      (fun rc => g_map_at m rc.1 rc.2 = 2) := by
    simp only [Finset.mem_filter, Finset.mem_product, Finset.mem_range]
    exact ⟨⟨by omega, by omega⟩, hp⟩
  have hset : (Finset.range 21 ×ˢ Finset.range 19).filter
        (fun rc => g_map_at (g_map_set m r c 0) rc.1 rc.2 = 2) =
      ((Finset.range 21 ×ˢ Finset.range 19).filter
        (fun rc => g_map_at m rc.1 rc.2 = 2)).erase (r, c) := by
    ext ⟨a, b⟩
    simp only [Finset.mem_filter, Finset.mem_product, Finset.mem_range, Finset.mem_erase,
      g_map_at_set m r c a b 0 hne, Prod.mk.injEq, ne_eq]
    by_cases e : a = r ∧ b = c
    · simp [e]
    · simp [e]
  unfold pellet_tiles
  rw [hset, Finset.card_erase_of_mem hmem]
  have hpos : 0 < ((Finset.range 21 ×ˢ Finset.range 19).filter
      (fun rc => g_map_at m rc.1 rc.2 = 2)).card := Finset.card_pos.mpr ⟨_, hmem⟩
  omega

/-! ## The pellet count -/

theorem inner_count_loop (m : List (List Int)) (r : Nat) (n : Nat) (acc : Int) :
    (List.range n).foldl
        (fun (acc : Int) (c : Nat) => if g_map_at m (r : Int) (c : Int) = 2 then acc + 1 else acc)
        acc =
      acc + ((Finset.range n).filter (fun c : Nat => g_map_at m r c = 2)).card := by
  induction n with
  | zero => simp
  | succ n ih =>
    rw [List.range_succ, List.foldl_append, ih, Finset.range_succ, Finset.filter_insert]
    simp only [List.foldl_cons, List.foldl_nil]
    by_cases h : g_map_at m r n = 2
    · rw [if_pos h, if_pos h, Finset.card_insert_of_not_mem (by simp)]
      push_cast
      omega
    · rw [if_neg h, if_neg h]

theorem outer_count_loop (f : Nat → Nat) (n : Nat) (acc : Int) :
    (List.range n).foldl (fun (acc : Int) (r : Nat) => acc + (f r : Int)) acc =
      acc + ((∑ r ∈ Finset.range n, f r : Nat) : Int) := by
  induction n with
  | zero => simp
  | succ n ih =>
    rw [List.range_succ, List.foldl_append, ih, Finset.sum_range_succ]
    simp only [List.foldl_cons, List.foldl_nil]
    push_cast
    omega

theorem pellet_tiles_eq_sum (m : List (List Int)) :
    pellet_tiles m =
      ∑ r ∈ Finset.range 21, ((Finset.range 19).filter (fun c : Nat => g_map_at m r c = 2)).card := by
  unfold pellet_tiles
  rw [Finset.card_filter, Finset.sum_product]
  apply Finset.sum_congr rfl
  intro r _
  rw [Finset.card_filter]

/-- The loops of `setup_game` count the Pellet cells of the grid. -/
theorem count_loop_eq (m : List (List Int)) : count_loop m 0 = pellet_tiles m := by
  have h21 : MAP_ROWS.toNat = 21 := by decide
  have h19 : MAP_COLS.toNat = 19 := by decide
  unfold count_loop
  rw [h21, h19, pellet_tiles_eq_sum]
  have hin : (fun (acc : Int) (r : Nat) =>
      (List.range 19).foldl
        (fun (acc : Int) (c : Nat) => if g_map_at m (r : Int) (c : Int) = 2 then acc + 1 else acc)
        acc) =
      (fun (acc : Int) (r : Nat) => acc +
        ((((Finset.range 19).filter (fun c : Nat => g_map_at m r c = 2)).card : Nat) : Int)) := by
    funext acc r
    exact inner_count_loop m r 19 acc
  rw [hin, outer_count_loop]
  simp

theorem pacman_part_pellets (s : Game) (h : s.g_pellets_left = pellet_tiles s.g_map) :
    (pacman_part s).g_pellets_left = pellet_tiles (pacman_part s).g_map := by
  by_cases hp : on_pellet s.g_map (pacman_step s.g_map s.g_pacman)
  · obtain ⟨h1, h2, -⟩ := pacman_part_on_pellet s hp
    rw [h1, h2, pellet_tiles_set s.g_map _ _ hp.1 hp.2, h]
  · rw [pacman_part_off_pellet s hp]
    exact h

theorem update_game_pellets (s : Game) (rnd : Fin 4 → Nat)
    (h : s.g_pellets_left = pellet_tiles s.g_map) :
    (update_game s rnd).g_pellets_left = pellet_tiles (update_game s rnd).g_map := by
  obtain ⟨h1, h2, -⟩ := update_game_keeps s rnd
  rw [h1, h2]
  exact pacman_part_pellets s h

theorem handle_input_keeps (s : Game) (events : List Event) :
    (handle_input s events).g_map = s.g_map ∧
    (handle_input s events).g_pellets_left = s.g_pellets_left ∧
    (handle_input s events).g_score = s.g_score ∧
    (handle_input s events).g_lives = s.g_lives ∧
    (handle_input s events).g_game_over = s.g_game_over ∧
    (handle_input s events).g_ghosts = s.g_ghosts ∧
    (handle_input s events).g_pacman.x = s.g_pacman.x ∧
    (handle_input s events).g_pacman.y = s.g_pacman.y ∧
    (handle_input s events).g_pacman.dir = s.g_pacman.dir := by
  unfold handle_input
  induction events generalizing s with
  | nil => simp
  | cons e rest ih =>
    rw [List.foldl_cons]
    have h := ih (handle_event s e)
    have he : (handle_event s e).g_map = s.g_map ∧
        (handle_event s e).g_pellets_left = s.g_pellets_left ∧
        (handle_event s e).g_score = s.g_score ∧
        (handle_event s e).g_lives = s.g_lives ∧
        (handle_event s e).g_game_over = s.g_game_over ∧
        (handle_event s e).g_ghosts = s.g_ghosts ∧
        (handle_event s e).g_pacman.x = s.g_pacman.x ∧
        (handle_event s e).g_pacman.y = s.g_pacman.y ∧
        (handle_event s e).g_pacman.dir = s.g_pacman.dir := by
      unfold handle_event
      split <;> simp
    obtain ⟨a1, a2, a3, a4, a5, a6, a7, a8, a9⟩ := h
    obtain ⟨b1, b2, b3, b4, b5, b6, b7, b8, b9⟩ := he
    exact ⟨a1.trans b1, a2.trans b2, a3.trans b3, a4.trans b4, a5.trans b5, a6.trans b6,
      a7.trans b7, a8.trans b8, a9.trans b9⟩

/-- C1: pellet-count consistency.  Immediately after `setup_game` (on any grid), after an
`update_game` tick from any consistent state (every input direction, every random choice),
and hence in every state of a run, `g_pellets_left` equals the number of cells of `g_map`
holding the Pellet value 2. -/
theorem pellets_left_eq_pellet_tiles :
    (∀ s : Game, (setup_game s).g_pellets_left = pellet_tiles (setup_game s).g_map) ∧
    (∀ (s : Game) (rnd : Fin 4 → Nat), s.g_pellets_left = pellet_tiles s.g_map →
      (update_game s rnd).g_pellets_left = pellet_tiles (update_game s rnd).g_map) ∧
    (∀ s : Game, Reachable s → s.g_pellets_left = pellet_tiles s.g_map) := by
  have hsetup : ∀ s : Game,
      (setup_game s).g_pellets_left = pellet_tiles (setup_game s).g_map := by
    intro s
    simp only [setup_game, reset_characters]
    exact count_loop_eq s.g_map
  refine ⟨hsetup, update_game_pellets, ?_⟩
  intro s hs
  induction hs with
  | setup => exact hsetup g_initial
  | input s events _ ih =>
    obtain ⟨h1, h2, -⟩ := handle_input_keeps s events
    rw [h1, h2]
    exact ih
  | tick s rnd _ ih => exact update_game_pellets s rnd ih
  | render s _ ih => exact ih

/-- C1 on the built-in grid: after `setup_game` and one tick the counter and the grid agree. -/
theorem pellets_left_eq_pellet_tiles_witness :
    (update_game (setup_game g_initial) (fun _ => 0)).g_pellets_left =
      pellet_tiles (update_game (setup_game g_initial) (fun _ => 0)).g_map :=
  pellets_left_eq_pellet_tiles.2.1 (setup_game g_initial) (fun _ => 0)
    (pellets_left_eq_pellet_tiles.1 g_initial)

/-! ## Winning on the last pellet, and eating a pellet once -/

/-- C2: for every state in which `g_pellets_left` is 1 and the agent's post-move cell holds
that last Pellet, one `update_game` tick sets `g_game_over` to 1 and increases `g_score` by
exactly 1010; from score 0 the score becomes 1010. -/
theorem last_pellet_wins (s : Game) (rnd : Fin 4 → Nat)
    (hleft : s.g_pellets_left = 1)
    (hcell : on_pellet s.g_map (pacman_step s.g_map s.g_pacman)) :
    (update_game s rnd).g_game_over = 1 ∧
    (update_game s rnd).g_score = s.g_score + 1010 ∧
    (s.g_score = 0 → (update_game s rnd).g_score = 1010) := by
  obtain ⟨-, -, h3, h4, -⟩ := pacman_part_on_pellet s hcell
  obtain ⟨-, -, k3, k4⟩ := update_game_keeps s rnd
  have hz : s.g_pellets_left - 1 = 0 := by omega
  rw [if_pos hz] at h3
  refine ⟨k4 (h4 hz), ?_, ?_⟩
  · rw [k3, h3]; omega
  · intro h0
    rw [k3, h3, h0]; rfl

/-- C6: pellet consumption is effective once and then a no-op.  A tick in which the agent's
post-move cell `(col, row)` is in bounds and holds Pellet changes exactly that grid cell to
Empty and decrements `g_pellets_left` by exactly 1; a further tick, on that grid, in which
the agent's post-move cell is that same cell, and any tick in which the agent's post-move
cell is not an in-bounds Pellet cell, leaves `g_map`, `g_pellets_left` and `g_score`
unchanged. -/
theorem pellet_eaten_once (s : Game) (rnd : Fin 4 → Nat) (col row : Int)
    (hcell : pac_cell (pacman_step s.g_map s.g_pacman) = (col, row))
    (hpel : on_pellet s.g_map (pacman_step s.g_map s.g_pacman)) :
    (∀ r c : Nat, g_map_at (update_game s rnd).g_map r c =
        if (r : Int) = row ∧ (c : Int) = col then 0 else g_map_at s.g_map r c) ∧
    (update_game s rnd).g_pellets_left = s.g_pellets_left - 1 ∧
    (∀ (t : Game) (rnd2 : Fin 4 → Nat), t.g_map = (update_game s rnd).g_map →
        pac_cell (pacman_step t.g_map t.g_pacman) = (col, row) →
        (update_game t rnd2).g_map = t.g_map ∧
        (update_game t rnd2).g_pellets_left = t.g_pellets_left ∧
        (update_game t rnd2).g_score = t.g_score) ∧
    (∀ (t : Game) (rnd2 : Fin 4 → Nat),
        ¬ on_pellet t.g_map (pacman_step t.g_map t.g_pacman) →
        (update_game t rnd2).g_map = t.g_map ∧
        (update_game t rnd2).g_pellets_left = t.g_pellets_left ∧
        (update_game t rnd2).g_score = t.g_score) := by
  obtain ⟨h1, h2, -⟩ := pacman_part_on_pellet s hpel
  obtain ⟨k1, k2, -⟩ := update_game_keeps s rnd
  have hb := hpel.1
  have hp := hpel.2
  rw [hcell] at h1 hb hp
  simp only at h1 hb hp
  obtain ⟨b1, b2, b3, b4⟩ := hb
  obtain ⟨r0, rfl⟩ := Int.eq_ofNat_of_zero_le b3
  obtain ⟨c0, rfl⟩ := Int.eq_ofNat_of_zero_le b1
  have hne : g_map_at s.g_map r0 c0 ≠ 0 := by rw [hp]; decide
  have hread : ∀ r c : Nat, g_map_at (update_game s rnd).g_map r c =
      if (r : Int) = (r0 : Int) ∧ (c : Int) = (c0 : Int) then 0 else g_map_at s.g_map r c := by
    intro r c
    rw [k1, h1, g_map_at_set s.g_map r0 c0 r c 0 hne]
    simp only [Int.ofNat_eq_coe, Nat.cast_inj]
  have hoff : ∀ (t : Game) (rnd2 : Fin 4 → Nat),
      ¬ on_pellet t.g_map (pacman_step t.g_map t.g_pacman) →
      (update_game t rnd2).g_map = t.g_map ∧
      (update_game t rnd2).g_pellets_left = t.g_pellets_left ∧
      (update_game t rnd2).g_score = t.g_score := by
    intro t rnd2 hn
    obtain ⟨j1, j2, j3, -⟩ := update_game_keeps t rnd2
    rw [j1, j2, j3, pacman_part_off_pellet t hn]
    exact ⟨rfl, rfl, rfl⟩
  refine ⟨hread, by rw [k2, h2], ?_, hoff⟩
  intro t rnd2 hmap ht
  apply hoff
  rintro ⟨-, hp2⟩
  rw [ht, hmap, hread] at hp2
  simp at hp2

/-- C2 on the scenario of a single pellet at cell (1, 1) with the agent moving onto it from
the adjacent cell: the score goes from 0 to 1010 and the game is over. -/
theorem last_pellet_wins_witness :
    (update_game single_pellet_state (fun _ => 0)).g_game_over = 1 ∧
    (update_game single_pellet_state (fun _ => 0)).g_score = 1010 :=
  ⟨(last_pellet_wins single_pellet_state (fun _ => 0) (by decide) (by decide)).1,
   (last_pellet_wins single_pellet_state (fun _ => 0) (by decide) (by decide)).2.2
     (by decide)⟩

/-- C6 on the built-in grid: the agent steps onto the pellet at row 16, column 10. -/
theorem pellet_eaten_once_witness :
    g_map_at (update_game before_pellet_state (fun _ => 0)).g_map 16 10 = 0 ∧
    (update_game before_pellet_state (fun _ => 0)).g_pellets_left =
      before_pellet_state.g_pellets_left - 1 :=
  ⟨by
    have h := (pellet_eaten_once before_pellet_state (fun _ => 0) 10 16
      (by decide) (by decide)).1 16 10
    simpa using h,
   (pellet_eaten_once before_pellet_state (fun _ => 0) 10 16 (by decide) (by decide)).2.1⟩

/-! ## The horizontal range -/

theorem ghosts_get_set (gs : Ghosts) (i j : Fin 4) (g : Ghost) :
    (gs.set i g).get j = if j = i then g else gs.get j := by
  fin_cases i <;> fin_cases j <;> rfl

theorem eat_pellets_keeps (s : Game) :
    (eat_pellets s).g_pacman = s.g_pacman ∧ (eat_pellets s).g_ghosts = s.g_ghosts ∧
    (eat_pellets s).g_lives = s.g_lives := by
  unfold eat_pellets
  simp only
  split_ifs <;> exact ⟨rfl, rfl, rfl⟩

theorem pacman_part_keeps (s : Game) :
    (pacman_part s).g_pacman = pacman_step s.g_map s.g_pacman ∧
    (pacman_part s).g_ghosts = s.g_ghosts ∧ (pacman_part s).g_lives = s.g_lives := by
  unfold pacman_part
  obtain ⟨h1, h2, h3⟩ := eat_pellets_keeps { s with g_pacman := pacman_step s.g_map s.g_pacman }
  exact ⟨h1, h2, h3⟩

theorem steer_pacman_pos (m : List (List Int)) (p : Pacman) :
    (steer_pacman m p).x = p.x ∧ (steer_pacman m p).y = p.y := by
  unfold steer_pacman
  simp only
  split_ifs <;> exact ⟨rfl, rfl⟩

theorem tdiv_24_2 : Int.tdiv 24 2 = 12 := by decide

theorem x_ok_iff (x : Int) : x_ok x ↔ -12 ≤ x ∧ x ≤ 468 := by
  unfold x_ok
  rw [tdiv_two_tile, tdiv_two_neg_tile]
  simp only [SCREEN_WIDTH, MAP_COLS, TILE_SIZE]
  omega

theorem wrap_pacman_x_ok (p : Pacman) : x_ok (wrap_pacman p).x := by
  rw [x_ok_iff]
  unfold wrap_pacman
  rw [tdiv_two_tile, tdiv_two_neg_tile]
  simp only [SCREEN_WIDTH, MAP_COLS, TILE_SIZE]
  split_ifs <;> (try simp only) <;> omega

theorem pacman_step_x_ok (m : List (List Int)) (p : Pacman) : x_ok (pacman_step m p).x := by
  unfold pacman_step
  rw [(steer_pacman_pos m _).1]
  exact wrap_pacman_x_ok _

theorem wrap_ghost_x_ok (g : Ghost) : x_ok (wrap_ghost g).x := by
  rw [x_ok_iff]
  unfold wrap_ghost
  rw [tdiv_two_tile, tdiv_two_neg_tile]
  simp only [SCREEN_WIDTH, MAP_COLS, TILE_SIZE]
  split_ifs <;> simp only at * <;> omega

theorem reset_characters_x_ok (s : Game) : all_x_ok (reset_characters s) := by
  unfold all_x_ok
  simp only [x_ok_iff]
  refine ⟨?_, ?_⟩
  · simp only [reset_characters, TILE_SIZE, tdiv_24_2]
    omega
  · intro i
    fin_cases i <;> simp only [reset_characters, Ghosts.get, TILE_SIZE, tdiv_24_2] <;> omega

/-- The three outcomes of one iteration of the adversary loop. -/
theorem ghost_iter_cases (rnd : Fin 4 → Nat) (s : Game) (i : Fin 4) :
    (collides (ghost_move rnd s i).g_pacman ((ghost_move rnd s i).g_ghosts.get i) = false ∧
      ghost_iter rnd s i = ghost_move rnd s i) ∨
    (collides (ghost_move rnd s i).g_pacman ((ghost_move rnd s i).g_ghosts.get i) = true ∧
      s.g_lives - 1 > 0 ∧
      ghost_iter rnd s i =
        reset_characters { ghost_move rnd s i with g_lives := s.g_lives - 1 }) ∨
    (collides (ghost_move rnd s i).g_pacman ((ghost_move rnd s i).g_ghosts.get i) = true ∧
      ¬ s.g_lives - 1 > 0 ∧
      ghost_iter rnd s i =
        { ghost_move rnd s i with g_lives := s.g_lives - 1, g_game_over := 1 }) := by
  unfold ghost_iter handle_collision
  cases hc : collides (ghost_move rnd s i).g_pacman ((ghost_move rnd s i).g_ghosts.get i)
  · left
    exact ⟨rfl, by simp⟩
  · right
    have hl : (ghost_move rnd s i).g_lives = s.g_lives := rfl
    by_cases h : s.g_lives - 1 > 0
    · left
      refine ⟨rfl, h, ?_⟩
      simp only [if_true, hl, if_pos h]
    · right
      refine ⟨rfl, h, ?_⟩
      simp only [if_true, hl, if_neg h]

theorem ghost_move_get (rnd : Fin 4 → Nat) (s : Game) (i j : Fin 4) :
    (ghost_move rnd s i).g_ghosts.get j =
      if j = i then move_ghost s.g_map (s.g_ghosts.get i) (rnd i) else s.g_ghosts.get j := by
  unfold ghost_move
  exact ghosts_get_set _ _ _ _

theorem ghost_iter_x_ok (rnd : Fin 4 → Nat) (s : Game) (i : Fin 4)
    (hp : x_ok s.g_pacman.x) :
    x_ok (ghost_iter rnd s i).g_pacman.x ∧
    x_ok ((ghost_iter rnd s i).g_ghosts.get i).x ∧
    ∀ j, x_ok (s.g_ghosts.get j).x → x_ok ((ghost_iter rnd s i).g_ghosts.get j).x := by
  have hmove : x_ok ((ghost_move rnd s i).g_ghosts.get i).x := by
    rw [ghost_move_get, if_pos rfl]
    exact wrap_ghost_x_ok _
  have hother : ∀ j, x_ok (s.g_ghosts.get j).x → x_ok ((ghost_move rnd s i).g_ghosts.get j).x := by
    intro j hj
    rw [ghost_move_get]
    split_ifs with e
    · exact wrap_ghost_x_ok _
    · exact hj
  rcases ghost_iter_cases rnd s i with ⟨-, h⟩ | ⟨-, -, h⟩ | ⟨-, -, h⟩
  · rw [h]; exact ⟨hp, hmove, hother⟩
  · rw [h]
    have hr := reset_characters_x_ok { ghost_move rnd s i with g_lives := s.g_lives - 1 }
    exact ⟨hr.1, hr.2 i, fun j _ => hr.2 j⟩
  · rw [h]; exact ⟨hp, hmove, hother⟩

theorem update_game_x_ok (s : Game) (rnd : Fin 4 → Nat) : all_x_ok (update_game s rnd) := by
  rw [update_game_eq]
  have hp : x_ok (pacman_part s).g_pacman.x := by
    rw [(pacman_part_keeps s).1]
    exact pacman_step_x_ok _ _
  obtain ⟨p0, a0, -⟩ := ghost_iter_x_ok rnd (pacman_part s) 0 hp
  obtain ⟨p1, a1, b1⟩ := ghost_iter_x_ok rnd _ 1 p0
  obtain ⟨p2, a2, b2⟩ := ghost_iter_x_ok rnd _ 2 p1
  obtain ⟨p3, a3, b3⟩ := ghost_iter_x_ok rnd _ 3 p2
  refine ⟨p3, ?_⟩
  intro j
  fin_cases j
  · exact b3 0 (b2 0 (b1 0 a0))
  · exact b3 1 (b2 1 a1)
  · exact b3 2 a2
  · exact a3

/-- In every state of a run every entity is inside the horizontal range. -/
theorem reachable_x_ok (s : Game) (hs : Reachable s) : all_x_ok s := by
  induction hs with
  | setup => exact reset_characters_x_ok _
  | input s events _ ih =>
    obtain ⟨-, -, -, -, -, h6, h7, -⟩ := handle_input_keeps s events
    unfold all_x_ok
    rw [h6, h7]
    exact ih
  | tick s rnd _ _ => exact update_game_x_ok s rnd
  | render s _ ih => exact ih

/-- C10: the wraparound bound.  If the agent's and every adversary's `x` lies in
`[-TILE_SIZE/2, SCREEN_WIDTH + TILE_SIZE/2] = [-12, 468]`, then after one `update_game` tick
every entity's `x` again lies in that range; hence in every state of a run that starts with
`setup_game` no entity is more than half a tile beyond either screen edge. -/
theorem wraparound_bound :
    (∀ (s : Game) (rnd : Fin 4 → Nat), all_x_ok s → all_x_ok (update_game s rnd)) ∧
    (∀ s : Game, Reachable s → all_x_ok s) :=
  ⟨fun s rnd _ => update_game_x_ok s rnd, reachable_x_ok⟩

set_option maxRecDepth 100000 in
/-- C10 at the state after `setup_game`, and at an agent on the right edge of the range
moving right, which is teleported to the left edge. -/
theorem wraparound_bound_witness :
    all_x_ok (update_game (setup_game g_initial) (fun _ => 0)) ∧
    (update_game { setup_game g_initial with g_pacman := ⟨468, 312, DIR_RIGHT, DIR_RIGHT, 0⟩ }
      (fun _ => 0)).g_pacman.x = -12 :=
  ⟨wraparound_bound.1 (setup_game g_initial) (fun _ => 0) (reset_characters_x_ok _),
   by decide⟩

/-! ## Collisions inside one tick -/

theorem loop_state_zero (rnd : Fin 4 → Nat) (s : Game) :
    loop_state rnd s 0 = pacman_part s := by
  simp only [loop_state, Fin.val_zero, List.take_zero, List.foldl_nil]

theorem loop_state_one (rnd : Fin 4 → Nat) (s : Game) :
    loop_state rnd s 1 = ghost_iter rnd (loop_state rnd s 0) 0 := by
  simp only [loop_state, Fin.val_zero, Fin.val_one, List.take_zero, List.take_succ_cons,
    List.foldl_cons, List.foldl_nil]

theorem loop_state_two (rnd : Fin 4 → Nat) (s : Game) :
    loop_state rnd s 2 = ghost_iter rnd (loop_state rnd s 1) 1 := by
  have h2 : ((2 : Fin 4) : Nat) = 2 := rfl
  simp only [loop_state, Fin.val_one, h2, List.take_zero, List.take_succ_cons,
    List.foldl_cons, List.foldl_nil]

theorem loop_state_three (rnd : Fin 4 → Nat) (s : Game) :
    loop_state rnd s 3 = ghost_iter rnd (loop_state rnd s 2) 2 := by
  have h2 : ((2 : Fin 4) : Nat) = 2 := rfl
  have h3 : ((3 : Fin 4) : Nat) = 3 := rfl
  simp only [loop_state, h2, h3, List.take_zero, List.take_succ_cons,
    List.foldl_cons, List.foldl_nil]

theorem update_game_loop (rnd : Fin 4 → Nat) (s : Game) :
    update_game s rnd = ghost_iter rnd (loop_state rnd s 3) 3 := by
  rw [loop_state_three, loop_state_two, loop_state_one, loop_state_zero, update_game_eq]

/-- One iteration lowers `g_lives` by one exactly when its collision test holds. -/
theorem ghost_iter_lives (rnd : Fin 4 → Nat) (s : Game) (i : Fin 4) :
    (ghost_iter rnd s i).g_lives =
      s.g_lives -
        (if collides (ghost_move rnd s i).g_pacman ((ghost_move rnd s i).g_ghosts.get i)
          then 1 else 0) := by
  rcases ghost_iter_cases rnd s i with ⟨hc, h⟩ | ⟨hc, -, h⟩ | ⟨hc, -, h⟩
  · rw [h, hc]
    simp [ghost_move]
  · rw [h, hc]
    simp [reset_characters]
  · rw [h, hc]
    simp

/-- The effect of a tick on `g_lives`, for every state. -/
theorem update_game_lives (s : Game) (rnd : Fin 4 → Nat) :
    (update_game s rnd).g_lives = s.g_lives - hit_count rnd s := by
  have e0 := ghost_iter_lives rnd (loop_state rnd s 0) 0
  have e1 := ghost_iter_lives rnd (loop_state rnd s 1) 1
  have e2 := ghost_iter_lives rnd (loop_state rnd s 2) 2
  have e3 := ghost_iter_lives rnd (loop_state rnd s 3) 3
  rw [← loop_state_one] at e0
  rw [← loop_state_two] at e1
  rw [← loop_state_three] at e2
  rw [← update_game_loop] at e3
  have hs : (loop_state rnd s 0).g_lives = s.g_lives := by
    rw [loop_state_zero]; exact (pacman_part_keeps s).2.2
  rw [e3, e2, e1, e0, hs]
  simp only [hit_count, hit, List.filter_cons, List.filter_nil]
  split_ifs <;> simp <;> omega

/-- C9: for every state in which, within a single `update_game` tick, two or more
adversaries each overlap the agent's collision box after their own movement step, that tick
decrements `g_lives` once for each such adversary: `k` overlapping adversaries lower
`g_lives` by `k`. -/
theorem lives_drop_once_per_hit (s : Game) (rnd : Fin 4 → Nat) :
    2 ≤ hit_count rnd s → (update_game s rnd).g_lives = s.g_lives - hit_count rnd s :=
  fun _ => update_game_lives s rnd

/-- C9 on the last life with adversaries 0 and 1 both overlapping the agent: two hits, and
`g_lives` goes from 1 to -1. -/
theorem lives_drop_once_per_hit_witness :
    hit_count (fun _ => 0) double_hit_state = 2 ∧
    (update_game double_hit_state (fun _ => 0)).g_lives = 1 - 2 :=
  have hk : hit_count (fun _ => 0) double_hit_state = 2 := by decide
  ⟨hk, by
    have h := lives_drop_once_per_hit double_hit_state (fun _ => 0) (by rw [hk])
    rw [hk] at h
    exact h⟩

/-- An iteration that starts with at most one life never repositions anything. -/
theorem ghost_iter_last_life (rnd : Fin 4 → Nat) (t : Game) (i : Fin 4)
    (hl : t.g_lives ≤ 1) :
    (ghost_iter rnd t i).g_pacman = t.g_pacman ∧
    (ghost_iter rnd t i).g_ghosts =
      t.g_ghosts.set i (move_ghost t.g_map (t.g_ghosts.get i) (rnd i)) ∧
    (ghost_iter rnd t i).g_lives ≤ 1 ∧
    (collides (ghost_move rnd t i).g_pacman ((ghost_move rnd t i).g_ghosts.get i) = true →
      (ghost_iter rnd t i).g_game_over = 1) := by
  rcases ghost_iter_cases rnd t i with ⟨hc, h⟩ | ⟨-, hpos, -⟩ | ⟨-, -, h⟩
  · rw [h, hc]
    exact ⟨rfl, rfl, hl, fun h => by cases h⟩
  · omega
  · rw [h]
    refine ⟨rfl, rfl, ?_, fun _ => rfl⟩
    show t.g_lives - 1 ≤ 1
    omega

/-- C4: for every state with `g_lives = 1` in which an `update_game` tick detects a
collision, the tick sets `g_game_over` to 1 and does not reposition entities: the agent is
what this tick's own movement step produced, and each adversary is what its own movement
step produced. -/
theorem last_life_no_reset (s : Game) (rnd : Fin 4 → Nat)
    (hl : s.g_lives = 1) (hh : ∃ i, hit rnd s i = true) :
    (update_game s rnd).g_game_over = 1 ∧
    (update_game s rnd).g_pacman = pacman_step s.g_map s.g_pacman ∧
    ∀ i : Fin 4, (update_game s rnd).g_ghosts.get i =
      move_ghost (pacman_part s).g_map (s.g_ghosts.get i) (rnd i) := by
  obtain ⟨hp, hg, hlv⟩ := pacman_part_keeps s
  have l0 : (loop_state rnd s 0).g_lives ≤ 1 := by rw [loop_state_zero, hlv]; omega
  obtain ⟨p0, g0, l1, c0⟩ := ghost_iter_last_life rnd (loop_state rnd s 0) 0 l0
  rw [← loop_state_one] at p0 g0 l1 c0
  obtain ⟨p1, g1, l2, c1⟩ := ghost_iter_last_life rnd (loop_state rnd s 1) 1 l1
  rw [← loop_state_two] at p1 g1 l2 c1
  obtain ⟨p2, g2, l3, c2⟩ := ghost_iter_last_life rnd (loop_state rnd s 2) 2 l2
  rw [← loop_state_three] at p2 g2 l3 c2
  obtain ⟨p3, g3, -, c3⟩ := ghost_iter_last_life rnd (loop_state rnd s 3) 3 l3
  rw [← update_game_loop] at p3 g3 c3
  have m0 : (loop_state rnd s 0).g_map = (pacman_part s).g_map := by rw [loop_state_zero]
  have m1 : (loop_state rnd s 1).g_map = (pacman_part s).g_map := by
    rw [loop_state_one, (ghost_iter_keeps rnd _ 0).1, m0]
  have m2 : (loop_state rnd s 2).g_map = (pacman_part s).g_map := by
    rw [loop_state_two, (ghost_iter_keeps rnd _ 1).1, m1]
  have m3 : (loop_state rnd s 3).g_map = (pacman_part s).g_map := by
    rw [loop_state_three, (ghost_iter_keeps rnd _ 2).1, m2]
  have k1 := (ghost_iter_keeps rnd (loop_state rnd s 1) 1).2.2.2
  rw [← loop_state_two] at k1
  have k2 := (ghost_iter_keeps rnd (loop_state rnd s 2) 2).2.2.2
  rw [← loop_state_three] at k2
  have k3 := (ghost_iter_keeps rnd (loop_state rnd s 3) 3).2.2.2
  rw [← update_game_loop] at k3
  have gs0 : (loop_state rnd s 0).g_ghosts = s.g_ghosts := by rw [loop_state_zero, hg]
  refine ⟨?_, ?_, ?_⟩
  · obtain ⟨i, hi⟩ := hh
    unfold hit at hi
    fin_cases i
    · exact k3 (k2 (k1 (c0 hi)))
    · exact k3 (k2 (c1 hi))
    · exact k3 (c2 hi)
    · exact c3 hi
  · rw [p3, p2, p1, p0, loop_state_zero, hp]
  · intro i
    rw [g3, g2, g1, g0, gs0, m0, m1, m2, m3]
    fin_cases i <;> simp [ghosts_get_set]

/-- C4 on the last life with adversaries 0 and 1 both overlapping the agent: the game is
over, the agent stays on its cell and adversary 0 is where its own step put it. -/
theorem last_life_no_reset_witness :
    (update_game double_hit_state (fun _ => 0)).g_game_over = 1 ∧
    (update_game double_hit_state (fun _ => 0)).g_pacman.x = 228 ∧
    ((update_game double_hit_state (fun _ => 0)).g_ghosts.get 0).x = 221 :=
  have h := last_life_no_reset double_hit_state (fun _ => 0) (by decide)
    ⟨0, by decide⟩
  ⟨h.1, by rw [h.2.1]; decide, by rw [h.2.2 0]; decide⟩

/-! ## A collision with lives remaining -/

theorem choose_dir_pos (m : List (List Int)) (g : Ghost) (r : Nat) :
    (choose_dir m g r).x = g.x ∧ (choose_dir m g r).y = g.y ∧
    (choose_dir m g r).color = g.color := by
  unfold choose_dir
  simp only
  split_ifs <;> exact ⟨rfl, rfl, rfl⟩

/-- Away from the teleport thresholds a movement step displaces an adversary by at most one
pixel on each axis. -/
theorem move_ghost_near (m : List (List Int)) (g : Ghost) (r : Nat)
    (h1 : -12 < g.x) (h2 : g.x < 468) :
    g.x - 1 ≤ (move_ghost m g r).x ∧ (move_ghost m g r).x ≤ g.x + 1 ∧
    g.y - 1 ≤ (move_ghost m g r).y ∧ (move_ghost m g r).y ≤ g.y + 1 := by
  obtain ⟨hx, hy, -⟩ := choose_dir_pos m g r
  unfold move_ghost wrap_ghost advance_ghost
  rw [tdiv_two_tile, tdiv_two_neg_tile]
  simp only [SCREEN_WIDTH, MAP_COLS, TILE_SIZE, GHOST_SPEED]
  cases hd : (choose_dir m g r).dir <;> simp only <;> split_ifs <;> simp only at * <;> omega

/-- After a reset, the iteration of an adversary that is still at its start position
detects no collision. -/
theorem ghost_iter_after_reset (rnd : Fin 4 → Nat) (t : Game) (j : Fin 4)
    (hp : t.g_pacman = (reset_characters t).g_pacman)
    (hg : t.g_ghosts.get j = (reset_characters t).g_ghosts.get j) :
    ghost_iter rnd t j = ghost_move rnd t j := by
  rcases ghost_iter_cases rnd t j with ⟨-, h⟩ | ⟨hc, -, -⟩ | ⟨hc, -, -⟩
  · exact h
  all_goals
    exfalso
    have hcol := (collides_true_iff _ _).1 hc
    rw [ghost_move_get, if_pos rfl, hg] at hcol
    have hpx : (ghost_move rnd t j).g_pacman = t.g_pacman := rfl
    rw [hpx, hp] at hcol
    simp only [abs_lt] at hcol
    have hn := move_ghost_near t.g_map ((reset_characters t).g_ghosts.get j) (rnd j)
      (by fin_cases j <;>
            simp only [reset_characters, Ghosts.get, TILE_SIZE, tdiv_24_2] <;> omega)
      (by fin_cases j <;>
            simp only [reset_characters, Ghosts.get, TILE_SIZE, tdiv_24_2] <;> omega)
    fin_cases j
    all_goals
      simp only [reset_characters, Ghosts.get, TILE_SIZE, SCOREBOARD_HEIGHT, tdiv_24_2]
        at hcol hn
      omega

theorem fin_four_cases : ∀ i : Fin 4, i = 0 ∨ i = 1 ∨ i = 2 ∨ i = 3 := by decide

/-- The iteration named by `reset_at` ends in the state `reset_characters` builds. -/
theorem ghost_iter_of_reset_at (rnd : Fin 4 → Nat) (s : Game) (i : Fin 4)
    (h : reset_at rnd s i) :
    (ghost_iter rnd (loop_state rnd s i) i).g_pacman = (reset_characters s).g_pacman ∧
    (ghost_iter rnd (loop_state rnd s i) i).g_ghosts = (reset_characters s).g_ghosts := by
  obtain ⟨hh, hl⟩ := h
  unfold hit at hh
  simp only at hh
  rcases ghost_iter_cases rnd (loop_state rnd s i) i with ⟨hc, -⟩ | ⟨-, -, e⟩ | ⟨-, hn, -⟩
  · rw [hc] at hh; cases hh
  · rw [e]; exact ⟨rfl, rfl⟩
  · exact absurd hl hn

/-- A later iteration after a reset: the agent stays, adversary `j` makes its step from its
start position, the other adversaries stay. -/
theorem ghost_iter_from_start (rnd : Fin 4 → Nat) (s t : Game) (j : Fin 4)
    (hp : t.g_pacman = (reset_characters s).g_pacman)
    (hg : t.g_ghosts.get j = (reset_characters s).g_ghosts.get j) :
    (ghost_iter rnd t j).g_pacman = (reset_characters s).g_pacman ∧
    (ghost_iter rnd t j).g_ghosts.get j =
      move_ghost t.g_map ((reset_characters s).g_ghosts.get j) (rnd j) ∧
    ∀ k, k ≠ j → (ghost_iter rnd t j).g_ghosts.get k = t.g_ghosts.get k := by
  rw [ghost_iter_after_reset rnd t j hp hg]
  refine ⟨hp, ?_, ?_⟩
  · rw [ghost_move_get, if_pos rfl, hg]
  · intro k hk
    rw [ghost_move_get, if_neg hk]

/-- C3, amended: for every state in which iteration `i` of an `update_game` tick detects a
collision while lives remain after the decrement, at the end of that tick the agent and
every adversary with index at most `i` are exactly what `reset_characters` assigns, and every
adversary with a larger index is what its own movement step of this tick makes of its
`reset_characters` value. -/
theorem reset_then_later_steps (s : Game) (rnd : Fin 4 → Nat) (i : Fin 4)
    (h : reset_at rnd s i) :
    (update_game s rnd).g_pacman = (reset_characters s).g_pacman ∧
    ∀ j : Fin 4,
      (j ≤ i → (update_game s rnd).g_ghosts.get j = (reset_characters s).g_ghosts.get j) ∧
      (i < j → (update_game s rnd).g_ghosts.get j =
        move_ghost (pacman_part s).g_map ((reset_characters s).g_ghosts.get j) (rnd j)) := by
  obtain ⟨rp, rg⟩ := ghost_iter_of_reset_at rnd s i h
  have m0 : (loop_state rnd s 0).g_map = (pacman_part s).g_map := by rw [loop_state_zero]
  have m1 : (loop_state rnd s 1).g_map = (pacman_part s).g_map := by
    rw [loop_state_one, (ghost_iter_keeps rnd _ 0).1, m0]
  have m2 : (loop_state rnd s 2).g_map = (pacman_part s).g_map := by
    rw [loop_state_two, (ghost_iter_keeps rnd _ 1).1, m1]
  have m3 : (loop_state rnd s 3).g_map = (pacman_part s).g_map := by
    rw [loop_state_three, (ghost_iter_keeps rnd _ 2).1, m2]
  rcases fin_four_cases i with rfl | rfl | rfl | rfl
  · -- the collision is with adversary 0; adversaries 1, 2 and 3 step afterwards
    rw [← loop_state_one] at rp rg
    obtain ⟨p1, a1, o1⟩ := ghost_iter_from_start rnd s (loop_state rnd s 1) 1 rp (by rw [rg])
    rw [← loop_state_two] at p1 a1 o1
    obtain ⟨p2, a2, o2⟩ := ghost_iter_from_start rnd s (loop_state rnd s 2) 2 p1
      (by rw [o1 2 (by decide), rg])
    rw [← loop_state_three] at p2 a2 o2
    obtain ⟨p3, a3, o3⟩ := ghost_iter_from_start rnd s (loop_state rnd s 3) 3 p2
      (by rw [o2 3 (by decide), o1 3 (by decide), rg])
    rw [← update_game_loop] at p3 a3 o3
    refine ⟨p3, ?_⟩
    intro j
    rcases fin_four_cases j with rfl | rfl | rfl | rfl
    · exact ⟨fun _ => by rw [o3 0 (by decide), o2 0 (by decide), o1 0 (by decide), rg],
        fun hlt => absurd hlt (by decide)⟩
    · exact ⟨fun hle => absurd hle (by decide),
        fun _ => by rw [o3 1 (by decide), o2 1 (by decide), a1, m1]⟩
    · exact ⟨fun hle => absurd hle (by decide),
        fun _ => by rw [o3 2 (by decide), a2, m2]⟩
    · exact ⟨fun hle => absurd hle (by decide), fun _ => by rw [a3, m3]⟩
  · -- the collision is with adversary 1; adversaries 2 and 3 step afterwards
    rw [← loop_state_two] at rp rg
    obtain ⟨p2, a2, o2⟩ := ghost_iter_from_start rnd s (loop_state rnd s 2) 2 rp (by rw [rg])
    rw [← loop_state_three] at p2 a2 o2
    obtain ⟨p3, a3, o3⟩ := ghost_iter_from_start rnd s (loop_state rnd s 3) 3 p2
      (by rw [o2 3 (by decide), rg])
    rw [← update_game_loop] at p3 a3 o3
    refine ⟨p3, ?_⟩
    intro j
    rcases fin_four_cases j with rfl | rfl | rfl | rfl
    · exact ⟨fun _ => by rw [o3 0 (by decide), o2 0 (by decide), rg],
        fun hlt => absurd hlt (by decide)⟩
    · exact ⟨fun _ => by rw [o3 1 (by decide), o2 1 (by decide), rg],
        fun hlt => absurd hlt (by decide)⟩
    · exact ⟨fun hle => absurd hle (by decide),
        fun _ => by rw [o3 2 (by decide), a2, m2]⟩
    · exact ⟨fun hle => absurd hle (by decide), fun _ => by rw [a3, m3]⟩
  · -- the collision is with adversary 2; adversary 3 steps afterwards
    rw [← loop_state_three] at rp rg
    obtain ⟨p3, a3, o3⟩ := ghost_iter_from_start rnd s (loop_state rnd s 3) 3 rp (by rw [rg])
    rw [← update_game_loop] at p3 a3 o3
    refine ⟨p3, ?_⟩
    intro j
    rcases fin_four_cases j with rfl | rfl | rfl | rfl
    · exact ⟨fun _ => by rw [o3 0 (by decide), rg], fun hlt => absurd hlt (by decide)⟩
    · exact ⟨fun _ => by rw [o3 1 (by decide), rg], fun hlt => absurd hlt (by decide)⟩
    · exact ⟨fun _ => by rw [o3 2 (by decide), rg], fun hlt => absurd hlt (by decide)⟩
    · exact ⟨fun hle => absurd hle (by decide), fun _ => by rw [a3, m3]⟩
  · -- the collision is with adversary 3, the last of the loop
    rw [← update_game_loop] at rp rg
    refine ⟨rp, ?_⟩
    intro j
    exact ⟨fun _ => by rw [rg], fun hlt => absurd hlt (by rcases fin_four_cases j with rfl | rfl | rfl | rfl <;> decide)⟩

set_option maxRecDepth 100000 in
/-- C3 as stated fails: with three lives and a collision with adversary 0, lives remain
(`reset_at` holds for index 0), yet at the end of the tick adversary 1 has already left its
start position, so the entities are not all at the `reset_characters` values. -/
theorem all_at_start_counterexample :
    reset_at (fun _ => 0) early_hit_state 0 ∧
    ¬ at_start (update_game early_hit_state (fun _ => 0)) := by
  decide

/-- C3, amended, on the state with three lives and a collision with adversary 0: the agent
is back at its start position and adversary 1 is one pixel above its start position. -/
theorem reset_then_later_steps_witness :
    (update_game early_hit_state (fun _ => 0)).g_pacman.x = 228 ∧
    (update_game early_hit_state (fun _ => 0)).g_pacman.y = 456 ∧
    ((update_game early_hit_state (fun _ => 0)).g_ghosts.get 0).y = 264 ∧
    ((update_game early_hit_state (fun _ => 0)).g_ghosts.get 1).y = 311 :=
  have h := reset_then_later_steps early_hit_state (fun _ => 0) 0 (by decide)
  ⟨by rw [h.1]; decide, by rw [h.1]; decide,
   by rw [(h.2 0).1 (by decide)]; decide,
   by rw [(h.2 1).2 (by decide)]; decide⟩

/-! ## The agent stays on passable cells -/

theorem cell_free_iff (m : List (List Int)) (c r : Int) :
    cell_free m c r ↔
      (r = 10 ∧ (c < 0 ∨ 19 ≤ c)) ∨
      (0 ≤ c ∧ c < 19 ∧ 0 ≤ r ∧ r < 21 ∧ g_map_at m r c ≠ 1) := by
  unfold cell_free
  rw [is_wall_cell_eq]
  by_cases h1 : r = 10 ∧ (c < 0 ∨ c ≥ 19)
  · rw [if_pos h1]
    constructor
    · intro _; left; exact ⟨h1.1, by omega⟩
    · intro _; rfl
  · rw [if_neg h1]
    by_cases h2 : c < 0 ∨ c ≥ 19 ∨ r < 0 ∨ r ≥ 21
    · rw [if_pos h2]
      constructor
      · intro h; cases h
      · rintro (⟨a, b⟩ | ⟨a, b, d, e, -⟩)
        · exact absurd ⟨a, by omega⟩ h1
        · omega
    · rw [if_neg h2]
      by_cases h3 : g_map_at m r c = 1
      · rw [if_pos h3]
        constructor
        · intro h; cases h
        · rintro (⟨a, b⟩ | ⟨-, -, -, -, e⟩)
          · exact absurd ⟨a, by omega⟩ h1
          · exact absurd h3 e
      · rw [if_neg h3]
        constructor
        · intro _; right; exact ⟨by omega, by omega, by omega, by omega, h3⟩
        · intro _; rfl

/-- A passable cell is on a row of the grid, and inside the grid unless on the tunnel row. -/
theorem cell_free_bounds (m : List (List Int)) (c r : Int) (h : cell_free m c r) :
    0 ≤ r ∧ r ≤ 20 ∧ ((0 ≤ c ∧ c ≤ 18) ∨ r = 10) := by
  rw [cell_free_iff] at h
  omega

theorem cell_free_tunnel (m : List (List Int)) (c : Int) (h : c < 0 ∨ 19 ≤ c) :
    cell_free m c 10 := by
  rw [cell_free_iff]
  left
  exact ⟨rfl, h⟩

/-- The alignment test of lines 274-277 and 321 in terms of the non-negative remainder. -/
theorem aligned_iff (x y : Int) :
    (x.tmod TILE_SIZE = TILE_SIZE.tdiv 2 ∧
      (y - SCOREBOARD_HEIGHT).tmod TILE_SIZE = TILE_SIZE.tdiv 2) ↔
    (0 ≤ x ∧ x % 24 = 12 ∧ 60 ≤ y ∧ (y - 60) % 24 = 12) := by
  rw [tdiv_two_tile]
  simp only [TILE_SIZE, SCOREBOARD_HEIGHT]
  rw [tmod_tile, tmod_tile]
  split_ifs <;> omega

theorem tdiv_at (c k : Int) (hc : 0 ≤ c) (hk0 : 0 ≤ k) (hk : k < 24) :
    (24 * c + k).tdiv TILE_SIZE = c := by
  simp only [TILE_SIZE]
  rw [tdiv_tile]
  split <;> omega

/-- Off a cell centre the grid logic of the agent does nothing. -/
theorem steer_off_centre (m : List (List Int)) (p : Pacman)
    (h : ¬ (0 ≤ p.x ∧ p.x % 24 = 12 ∧ 60 ≤ p.y ∧ (p.y - 60) % 24 = 12)) :
    steer_pacman m p = p := by
  rw [← aligned_iff] at h
  unfold steer_pacman
  simp only
  rw [if_neg h]

/-- On the centre of a passable cell the grid logic leaves the agent on that centre, stopped
or headed for a passable cell. -/
theorem steer_at_centre (m : List (List Int)) (p : Pacman) (c r : Int)
    (hc : 0 ≤ c) (hc2 : c ≤ 19) (hx : p.x = 24 * c + 12) (hy : p.y = 24 * r + 72)
    (hfree : cell_free m c r) :
    at_centre m (steer_pacman m p) := by
  have hr := (cell_free_bounds m c r hfree).1
  have hal : p.x.tmod TILE_SIZE = TILE_SIZE.tdiv 2 ∧
      (p.y - SCOREBOARD_HEIGHT).tmod TILE_SIZE = TILE_SIZE.tdiv 2 := by
    rw [aligned_iff]; omega
  have hgx : p.x.tdiv TILE_SIZE = c := by rw [hx]; exact tdiv_at c 12 hc (by omega) (by omega)
  have hgy : (p.y - SCOREBOARD_HEIGHT).tdiv TILE_SIZE = r := by
    have e : p.y - SCOREBOARD_HEIGHT = 24 * r + 12 := by rw [hy]; simp only [SCOREBOARD_HEIGHT]; omega
    rw [e]; exact tdiv_at r 12 hr (by omega) (by omega)
  obtain ⟨px, py⟩ := steer_pacman_pos m p
  refine ⟨c, r, hc, hc2, by rw [px]; exact hx, by rw [py]; exact hy, hfree, ?_⟩
  unfold steer_pacman
  simp only [hgx, hgy]
  rw [if_pos hal]
  split_ifs
  all_goals first
    | (simp only [step_cell]; exact hfree)
    | (rename_i h; unfold cell_free; exact not_not.mp h)
/-- The agent after lines 257-268: direction kept, one coordinate moved by two pixels, and
`x` teleported when it passes a threshold. -/
theorem move_wrap_fields (p : Pacman) :
    (wrap_pacman (move_pacman p)).dir = p.dir ∧
    (wrap_pacman (move_pacman p)).y =
      (match p.dir with
        | DIR_UP => p.y - 2
        | DIR_DOWN => p.y + 2
        | _ => p.y) ∧
    (wrap_pacman (move_pacman p)).x =
      (if (match p.dir with
            | DIR_LEFT => p.x - 2
            | DIR_RIGHT => p.x + 2
            | _ => p.x) < -12 then 468
       else if (match p.dir with
            | DIR_LEFT => p.x - 2
            | DIR_RIGHT => p.x + 2
            | _ => p.x) > 468 then -12
       else (match p.dir with
            | DIR_LEFT => p.x - 2
            | DIR_RIGHT => p.x + 2
            | _ => p.x)) := by
  obtain ⟨x, y, d, n, t⟩ := p
  unfold wrap_pacman move_pacman
  rw [tdiv_two_tile, tdiv_two_neg_tile]
  simp only [SCREEN_WIDTH, MAP_COLS, TILE_SIZE, PACMAN_SPEED]
  have e : (19 : Int) * 24 + 12 = 468 := by norm_num
  rw [e]
  cases d <;> simp only <;> split_ifs <;> exact ⟨rfl, rfl, rfl⟩

theorem inv_in_row (m : List (List Int)) (q : Pacman) (c r k : Int)
    (hc : -1 ≤ c) (hc2 : c ≤ 18) (hk0 : 0 ≤ k) (hk : k < 24) (hpar : k % 2 = 0)
    (hkz : k = 0 → c = -1) (hx : q.x = 24 * c + 12 + k) (hy : q.y = 24 * r + 72)
    (hf1 : cell_free m c r) (hf2 : cell_free m (c + 1) r)
    (hd : q.dir = DIR_LEFT ∨ q.dir = DIR_RIGHT) :
    agent_inv m (steer_pacman m q) := by
  rw [steer_off_centre m q (by omega)]
  exact Or.inr (Or.inl ⟨c, r, k, hc, hc2, hk0, hk, hpar, hkz, hx, hy, hf1, hf2, hd⟩)

theorem inv_in_col (m : List (List Int)) (q : Pacman) (c r k : Int)
    (hc : 0 ≤ c) (hk0 : 0 < k) (hk : k < 24) (hpar : k % 2 = 0)
    (hx : q.x = 24 * c + 12) (hy : q.y = 24 * r + 72 + k)
    (hf1 : cell_free m c r) (hf2 : cell_free m c (r + 1))
    (hd : q.dir = DIR_UP ∨ q.dir = DIR_DOWN) :
    agent_inv m (steer_pacman m q) := by
  rw [steer_off_centre m q (by omega)]
  exact Or.inr (Or.inr ⟨c, r, k, hc, hk0, hk, hpar, hx, hy, hf1, hf2, hd⟩)

theorem inv_centre (m : List (List Int)) (q : Pacman) (c r : Int)
    (hc : 0 ≤ c) (hc2 : c ≤ 19) (hx : q.x = 24 * c + 12) (hy : q.y = 24 * r + 72)
    (hf : cell_free m c r) :
    agent_inv m (steer_pacman m q) :=
  Or.inl (steer_at_centre m q c r hc hc2 hx hy hf)

/-- The agent's movement step keeps the invariant, provided the cell at row 10, column 0
(where the agent re-enters the grid from the left) is passable. -/
theorem pacman_step_inv (m : List (List Int)) (p : Pacman)
    (h0 : cell_free m 0 10) (h : agent_inv m p) :
    agent_inv m (pacman_step m p) := by
  unfold pacman_step
  obtain ⟨qd, qy, qx⟩ := move_wrap_fields p
  rcases h with ⟨c, r, hc, hc2, hx, hy, hf, hn⟩ |
    ⟨c, r, k, hc, hc2, hk0, hk, hpar, hkz, hx, hy, hf1, hf2, hd⟩ |
    ⟨c, r, k, hc, hk0, hk, hpar, hx, hy, hf1, hf2, hd⟩
  · -- on a cell centre
    cases hdir : p.dir
    all_goals
      rw [hdir] at hn qd
      simp only [hdir] at qy qx
      simp only [step_cell] at hn
    · -- up
      have hb := cell_free_bounds m c (r - 1) hn
      have e : r - 1 + 1 = r := by omega
      refine inv_in_col m _ c (r - 1) 22 hc (by omega) (by omega) (by omega) ?_ ?_ hn
        (by rw [e]; exact hf) (Or.inl qd)
      · rw [qx]; split_ifs <;> omega
      · rw [qy]; omega
    · -- down
      refine inv_in_col m _ c r 2 hc (by omega) (by omega) (by omega) ?_ ?_ hf hn
        (Or.inr qd)
      · rw [qx]; split_ifs <;> omega
      · rw [qy]; omega
    · -- left
      have e : c - 1 + 1 = c := by omega
      refine inv_in_row m _ (c - 1) r 22 (by omega) (by omega) (by omega) (by omega)
        (by omega) (by omega) ?_ ?_ hn (by rw [e]; exact hf) (Or.inl qd)
      · rw [qx]; split_ifs <;> omega
      · rw [qy]; omega
    · -- right
      by_cases h19 : c = 19
      · -- through the right end of the tunnel
        subst h19
        have hb := cell_free_bounds m 19 r hf
        have hr : r = 10 := by omega
        subst hr
        refine inv_in_row m _ (-1) 10 0 (by omega) (by omega) (by omega) (by omega)
          (by omega) (by omega) ?_ ?_ (cell_free_tunnel m (-1) (by omega)) h0 (Or.inr qd)
        · rw [qx]; split_ifs <;> omega
        · rw [qy]; omega
      · refine inv_in_row m _ c r 2 (by omega) (by omega) (by omega) (by omega)
          (by omega) (by omega) ?_ ?_ hf hn (Or.inr qd)
        · rw [qx]; split_ifs <;> omega
        · rw [qy]; omega
    · -- stopped
      refine inv_centre m _ c r hc hc2 ?_ ?_ hf
      · rw [qx]; split_ifs <;> omega
      · rw [qy]; omega
  · -- between two cells of a row
    have hb1 := cell_free_bounds m c r hf1
    rcases hd with hdir | hdir
    all_goals
      rw [hdir] at qd
      simp only [hdir] at qy qx
    · -- left
      by_cases hk2 : k = 0
      · -- through the left end of the tunnel
        have hcm : c = -1 := hkz hk2
        subst hcm
        have hr : r = 10 := by omega
        subst hr
        refine inv_centre m _ 19 10 (by omega) (by omega) ?_ ?_
          (cell_free_tunnel m 19 (by omega))
        · rw [qx]; split_ifs <;> omega
        · rw [qy]; omega
      · by_cases hk3 : k = 2 ∧ 0 ≤ c
        · refine inv_centre m _ c r hk3.2 (by omega) ?_ ?_ hf1
          · rw [qx]; split_ifs <;> omega
          · rw [qy]; omega
        · refine inv_in_row m _ c r (k - 2) hc hc2 (by omega) (by omega) (by omega)
            (by omega) ?_ ?_ hf1 hf2 (Or.inl qd)
          · rw [qx]; split_ifs <;> omega
          · rw [qy]; omega
    · -- right
      by_cases hk2 : k = 22
      · refine inv_centre m _ (c + 1) r (by omega) (by omega) ?_ ?_ hf2
        · rw [qx]; split_ifs <;> omega
        · rw [qy]; omega
      · refine inv_in_row m _ c r (k + 2) hc hc2 (by omega) (by omega) (by omega)
          (by omega) ?_ ?_ hf1 hf2 (Or.inr qd)
        · rw [qx]; split_ifs <;> omega
        · rw [qy]; omega
  · -- between two cells of a column
    have hb1 := cell_free_bounds m c r hf1
    have hb2 := cell_free_bounds m c (r + 1) hf2
    have hc2 : c ≤ 18 := by omega
    rcases hd with hdir | hdir
    all_goals
      rw [hdir] at qd
      simp only [hdir] at qy qx
    · -- up
      by_cases hk2 : k = 2
      · refine inv_centre m _ c r hc (by omega) ?_ ?_ hf1
        · rw [qx]; split_ifs <;> omega
        · rw [qy]; omega
      · refine inv_in_col m _ c r (k - 2) hc (by omega) (by omega) (by omega) ?_ ?_ hf1 hf2
          (Or.inl qd)
        · rw [qx]; split_ifs <;> omega
        · rw [qy]; omega
    · -- down
      by_cases hk2 : k = 22
      · refine inv_centre m _ c (r + 1) hc (by omega) ?_ ?_ hf2
        · rw [qx]; split_ifs <;> omega
        · rw [qy]; omega
      · refine inv_in_col m _ c r (k + 2) hc (by omega) (by omega) (by omega) ?_ ?_ hf1 hf2
          (Or.inr qd)
        · rw [qx]; split_ifs <;> omega
        · rw [qy]; omega
/-- The invariant only reads passability, so it carries over to a grid with the same
passable cells. -/
theorem agent_inv_of_walls (m m2 : List (List Int)) (p : Pacman)
    (hw : ∀ c r : Int, cell_free m c r ↔ cell_free m2 c r) (h : agent_inv m p) :
    agent_inv m2 p := by
  rcases h with ⟨c, r, hc, hc2, hx, hy, hf, hn⟩ |
    ⟨c, r, k, hc, hc2, hk0, hk, hpar, hkz, hx, hy, hf1, hf2, hd⟩ |
    ⟨c, r, k, hc, hk0, hk, hpar, hx, hy, hf1, hf2, hd⟩
  · exact Or.inl ⟨c, r, hc, hc2, hx, hy, (hw _ _).1 hf, (hw _ _).1 hn⟩
  · exact Or.inr (Or.inl ⟨c, r, k, hc, hc2, hk0, hk, hpar, hkz, hx, hy, (hw _ _).1 hf1,
      (hw _ _).1 hf2, hd⟩)
  · exact Or.inr (Or.inr ⟨c, r, k, hc, hk0, hk, hpar, hx, hy, (hw _ _).1 hf1,
      (hw _ _).1 hf2, hd⟩)

/-- The invariant only reads the position and the direction of the agent. -/
theorem agent_inv_congr (m : List (List Int)) (p q : Pacman)
    (hx : q.x = p.x) (hy : q.y = p.y) (hd : q.dir = p.dir) (h : agent_inv m p) :
    agent_inv m q := by
  unfold agent_inv at_centre in_row in_col at *
  rw [hx, hy, hd]
  exact h

/-- Eating a pellet leaves every cell as passable as it was. -/
theorem cell_free_set (m : List (List Int)) (col row : Int)
    (hb : in_grid col row) (hp : g_map_at m row col = 2) (c r : Int) :
    cell_free (g_map_set m row col 0) c r ↔ cell_free m c r := by
  rw [cell_free_iff, cell_free_iff]
  obtain ⟨b1, -, b3, -⟩ := hb
  obtain ⟨r0, rfl⟩ := Int.eq_ofNat_of_zero_le b3
  obtain ⟨c0, rfl⟩ := Int.eq_ofNat_of_zero_le b1
  have hne : g_map_at m r0 c0 ≠ 0 := by rw [hp]; decide
  by_cases hin : 0 ≤ c ∧ 0 ≤ r
  · obtain ⟨r1, rfl⟩ := Int.eq_ofNat_of_zero_le hin.2
    obtain ⟨c1, rfl⟩ := Int.eq_ofNat_of_zero_le hin.1
    have hread := g_map_at_set m r0 c0 r1 c1 0 hne
    simp only [Int.ofNat_eq_coe] at hread ⊢
    rw [hread]
    by_cases e : r1 = r0 ∧ c1 = c0
    · rw [if_pos e]
      obtain ⟨e1, e2⟩ := e
      subst e1 e2
      rw [hp]
      simp
    · rw [if_neg e]
  · constructor
    · rintro (h | h)
      · exact Or.inl h
      · omega
    · rintro (h | h)
      · exact Or.inl h
      · omega

theorem pacman_part_walls (s : Game) (c r : Int) :
    cell_free (pacman_part s).g_map c r ↔ cell_free s.g_map c r := by
  by_cases hp : on_pellet s.g_map (pacman_step s.g_map s.g_pacman)
  · rw [(pacman_part_on_pellet s hp).1]
    exact cell_free_set s.g_map _ _ hp.1 hp.2 c r
  · rw [pacman_part_off_pellet s hp]

theorem start_cells_free :
    cell_free g_map_init 9 16 ∧ cell_free g_map_init 10 16 ∧ cell_free g_map_init 0 10 := by
  unfold cell_free
  decide

/-- The agent as `reset_characters` places it satisfies the invariant on the built-in grid. -/
theorem reset_characters_inv (s : Game) :
    agent_inv g_map_init (reset_characters s).g_pacman := by
  refine Or.inl ⟨9, 16, by omega, by omega, ?_, ?_, start_cells_free.1, start_cells_free.2.1⟩
  · simp only [reset_characters, TILE_SIZE, tdiv_24_2]
    omega
  · simp only [reset_characters, TILE_SIZE, SCOREBOARD_HEIGHT, tdiv_24_2]
    omega

theorem ghost_iter_inv (rnd : Fin 4 → Nat) (s : Game) (i : Fin 4)
    (h : agent_inv g_map_init s.g_pacman) :
    agent_inv g_map_init (ghost_iter rnd s i).g_pacman := by
  rcases ghost_iter_cases rnd s i with ⟨-, e⟩ | ⟨-, -, e⟩ | ⟨-, -, e⟩
  · rw [e]; exact h
  · rw [e]; exact reset_characters_inv _
  · rw [e]; exact h

/-- One tick keeps the walls in place and the agent on passable cells. -/
theorem update_game_inv (s : Game) (rnd : Fin 4 → Nat)
    (hw : walls_kept s.g_map) (h : agent_inv g_map_init s.g_pacman) :
    walls_kept (update_game s rnd).g_map ∧
    agent_inv g_map_init (update_game s rnd).g_pacman := by
  constructor
  · intro c r
    rw [(update_game_keeps s rnd).1, pacman_part_walls]
    exact hw c r
  · rw [update_game_eq]
    apply ghost_iter_inv
    apply ghost_iter_inv
    apply ghost_iter_inv
    apply ghost_iter_inv
    rw [(pacman_part_keeps s).1]
    apply agent_inv_of_walls s.g_map g_map_init _ hw
    apply pacman_step_inv
    · exact (hw 0 10).2 start_cells_free.2.2
    · exact agent_inv_of_walls g_map_init s.g_map _ (fun c r => (hw c r).symm) h

/-- In every state of a run the walls are those of the built-in grid and the agent is on a
cell centre or between two adjacent passable cells. -/
theorem reachable_inv (s : Game) (hs : Reachable s) :
    walls_kept s.g_map ∧ agent_inv g_map_init s.g_pacman := by
  induction hs with
  | setup => exact ⟨fun _ _ => Iff.rfl, reset_characters_inv _⟩
  | input s events _ ih =>
    obtain ⟨h1, -, -, -, -, -, h7, h8, h9⟩ := handle_input_keeps s events
    rw [h1]
    exact ⟨ih.1, agent_inv_congr _ _ _ h7 h8 h9 ih.2⟩
  | tick s rnd _ ih => exact update_game_inv s rnd ih.1 ih.2
  | render s _ ih => exact ⟨ih.1, agent_inv_congr _ _ _ rfl rfl rfl ih.2⟩

/-- An agent that satisfies the invariant is on a cell inside the grid or on the tunnel
row. -/
theorem agent_inv_on_grid (m : List (List Int)) (p : Pacman) (h : agent_inv m p) :
    on_grid_or_tunnel p.x p.y := by
  unfold on_grid_or_tunnel in_grid
  simp only [TILE_SIZE, SCOREBOARD_HEIGHT, MAP_COLS, MAP_ROWS, TUNNEL_ROW]
  rw [tdiv_tile, tdiv_tile]
  rcases h with ⟨c, r, hc, hc2, hx, hy, hf, -⟩ |
    ⟨c, r, k, hc, hc2, hk0, hk, hpar, hkz, hx, hy, hf1, hf2, -⟩ |
    ⟨c, r, k, hc, hk0, hk, hpar, hx, hy, hf1, hf2, -⟩
  · have hb := cell_free_bounds m c r hf
    split_ifs <;> omega
  · have hb1 := cell_free_bounds m c r hf1
    have hb2 := cell_free_bounds m (c + 1) r hf2
    split_ifs <;> omega
  · have hb1 := cell_free_bounds m c r hf1
    have hb2 := cell_free_bounds m c (r + 1) hf2
    split_ifs <;> omega

theorem run_checked_eq (draws : List Nat) (s : Game) :
    run_checked draws s = run_quiet draws s := by
  induction draws generalizing s with
  | nil => rfl
  | cons a rest ih =>
    simp only [run_checked, if_true, run_quiet, List.foldl_cons]
    exact ih _

theorem reachable_run_quiet (draws : List Nat) (s : Game) (h : Reachable s) :
    Reachable (run_quiet draws s) := by
  induction draws generalizing s with
  | nil => exact h
  | cons a rest ih =>
    simp only [run_quiet, List.foldl_cons]
    exact ih _ (Reachable.render _ (Reachable.tick _ _ (Reachable.input _ _ h)))

/-- The state after the 516 frames of `escape_draws`: adversary 0 is at `(204, 564)`, that
is column 8 of row 21, below the last row of the grid; no life was lost and the game is not
over. -/
theorem escape_run_end :
    (run_checked escape_draws (setup_game g_initial)).g_ghosts.g0.x = 204 ∧
    (run_checked escape_draws (setup_game g_initial)).g_ghosts.g0.y = 564 ∧
    (run_checked escape_draws (setup_game g_initial)).g_lives = 3 ∧
    (run_checked escape_draws (setup_game g_initial)).g_game_over = 0 := by
  decide!

theorem ghosts_get_zero (gs : Ghosts) : gs.get 0 = gs.g0 := rfl

/-- A position 564 pixels down is on row 21: not inside the grid and not on `TUNNEL_ROW`. -/
theorem below_grid (x : Int) : ¬ on_grid_or_tunnel x 564 := by
  have hrow : (564 - SCOREBOARD_HEIGHT).tdiv TILE_SIZE = 21 := by decide
  unfold on_grid_or_tunnel in_grid
  rw [hrow]
  simp only [MAP_ROWS, TUNNEL_ROW]
  omega

/-- An iteration that does not take the reset branch leaves the agent alone and only
replaces adversary `i` by the result of its movement step. -/
theorem ghost_iter_no_reset (rnd : Fin 4 → Nat) (t : Game) (i : Fin 4)
    (h : ¬ (collides (ghost_move rnd t i).g_pacman ((ghost_move rnd t i).g_ghosts.get i) = true
      ∧ t.g_lives - 1 > 0)) :
    (ghost_iter rnd t i).g_pacman = t.g_pacman ∧
    (ghost_iter rnd t i).g_ghosts =
      t.g_ghosts.set i (move_ghost t.g_map (t.g_ghosts.get i) (rnd i)) := by
  rcases ghost_iter_cases rnd t i with ⟨-, e⟩ | ⟨hc, hpos, -⟩ | ⟨-, -, e⟩
  · rw [e]; exact ⟨rfl, rfl⟩
  · exact absurd ⟨hc, hpos⟩ h
  · rw [e]; exact ⟨rfl, rfl⟩

/-- In a tick without a collision reset the agent ends as its movement step left it and
every adversary ends as its own movement step left it. -/
theorem update_game_no_reset (s : Game) (rnd : Fin 4 → Nat) (h : no_reset rnd s) :
    (update_game s rnd).g_pacman = pacman_step s.g_map s.g_pacman ∧
    ∀ i : Fin 4, (update_game s rnd).g_ghosts.get i =
      move_ghost (pacman_part s).g_map (s.g_ghosts.get i) (rnd i) := by
  obtain ⟨hp, hg, -⟩ := pacman_part_keeps s
  have n0 := h 0
  have n1 := h 1
  have n2 := h 2
  have n3 := h 3
  unfold reset_at hit at n0 n1 n2 n3
  simp only at n0 n1 n2 n3
  have l0 : (ghost_move rnd (loop_state rnd s 0) 0).g_lives = (loop_state rnd s 0).g_lives := rfl
  obtain ⟨p0, g0⟩ := ghost_iter_no_reset rnd (loop_state rnd s 0) 0 n0
  rw [← loop_state_one] at p0 g0
  obtain ⟨p1, g1⟩ := ghost_iter_no_reset rnd (loop_state rnd s 1) 1 n1
  rw [← loop_state_two] at p1 g1
  obtain ⟨p2, g2⟩ := ghost_iter_no_reset rnd (loop_state rnd s 2) 2 n2
  rw [← loop_state_three] at p2 g2
  obtain ⟨p3, g3⟩ := ghost_iter_no_reset rnd (loop_state rnd s 3) 3 n3
  rw [← update_game_loop] at p3 g3
  have m0 : (loop_state rnd s 0).g_map = (pacman_part s).g_map := by rw [loop_state_zero]
  have m1 : (loop_state rnd s 1).g_map = (pacman_part s).g_map := by
    rw [loop_state_one, (ghost_iter_keeps rnd _ 0).1, m0]
  have m2 : (loop_state rnd s 2).g_map = (pacman_part s).g_map := by
    rw [loop_state_two, (ghost_iter_keeps rnd _ 1).1, m1]
  have m3 : (loop_state rnd s 3).g_map = (pacman_part s).g_map := by
    rw [loop_state_three, (ghost_iter_keeps rnd _ 2).1, m2]
  have gs0 : (loop_state rnd s 0).g_ghosts = s.g_ghosts := by rw [loop_state_zero, hg]
  refine ⟨by rw [p3, p2, p1, p0, loop_state_zero, hp], ?_⟩
  intro i
  rw [g3, g2, g1, g0, gs0, m0, m1, m2, m3]
  rcases fin_four_cases i with rfl | rfl | rfl | rfl <;> simp [ghosts_get_set]

/-! ## Direction changes only at grid alignment -/

theorem move_wrap_keeps (p : Pacman) :
    (wrap_pacman (move_pacman p)).dir = p.dir ∧
    (wrap_pacman (move_pacman p)).next_dir = p.next_dir := by
  obtain ⟨x, y, d, n, t⟩ := p
  unfold wrap_pacman move_pacman
  cases d <;> simp only <;> split_ifs <;> exact ⟨rfl, rfl⟩

/-- Off a cell centre (C remainder) the grid logic of the agent does nothing. -/
theorem steer_not_aligned (m : List (List Int)) (p : Pacman) (h : ¬ aligned p.x p.y) :
    steer_pacman m p = p := by
  unfold aligned at h
  unfold steer_pacman
  simp only
  rw [if_neg h]

theorem steer_next_dir (m : List (List Int)) (p : Pacman) :
    (steer_pacman m p).next_dir = p.next_dir := by
  unfold steer_pacman
  simp only
  split_ifs <;> rfl

theorem advance_wrap_dir (g : Ghost) : (wrap_ghost (advance_ghost g)).dir = g.dir := by
  obtain ⟨x, y, d, c⟩ := g
  unfold wrap_ghost advance_ghost
  cases d <;> simp only <;> split_ifs <;> rfl

theorem choose_dir_not_aligned (m : List (List Int)) (g : Ghost) (r : Nat)
    (h : ¬ aligned g.x g.y) : choose_dir m g r = g := by
  unfold aligned at h
  unfold choose_dir
  simp only
  rw [if_neg h]

/-- C12: direction changes happen only at grid alignment.  For every state and every
`update_game` tick in which no collision reset occurs: if the agent's direction at the end of
the tick differs from its direction at the start, then the agent's post-move position is
aligned on both axes (`x % 24 = 12` and `(y - 60) % 24 = 12`); and if an adversary's
direction differs, then that adversary's pre-move position is aligned on both axes. -/
theorem turns_only_when_aligned (s : Game) (rnd : Fin 4 → Nat) (h : no_reset rnd s) :
    ((update_game s rnd).g_pacman.dir ≠ s.g_pacman.dir →
      aligned (wrap_pacman (move_pacman s.g_pacman)).x
        (wrap_pacman (move_pacman s.g_pacman)).y) ∧
    ∀ i : Fin 4, ((update_game s rnd).g_ghosts.get i).dir ≠ (s.g_ghosts.get i).dir →
      aligned (s.g_ghosts.get i).x (s.g_ghosts.get i).y := by
  obtain ⟨hp, hg⟩ := update_game_no_reset s rnd h
  constructor
  · intro hne
    by_contra hal
    apply hne
    rw [hp]
    unfold pacman_step
    rw [steer_not_aligned _ _ hal]
    exact (move_wrap_keeps _).1
  · intro i hne
    by_contra hal
    apply hne
    rw [hg i]
    unfold move_ghost
    rw [advance_wrap_dir, choose_dir_not_aligned _ _ _ hal]

set_option maxRecDepth 100000 in
/-- C12 on the first tick after `setup_game`: no reset occurs, adversary 2 turns from up to
right, and its start position (204, 312) is aligned. -/
theorem turns_only_when_aligned_witness :
    ((update_game (setup_game g_initial) (fun _ => 0)).g_ghosts.get 2).dir = DIR_RIGHT ∧
    aligned 204 312 :=
  have h := (turns_only_when_aligned (setup_game g_initial) (fun _ => 0) (by decide)).2 2
    (by decide)
  ⟨by decide, h⟩

/-! ## The legal set of an adversary -/

/-- The array `possible` of lines 322-326 holds exactly the directions of the legal set. -/
theorem mem_possible_dirs (m : List (List Int)) (g : Ghost) (d : Direction) :
    d ∈ possible_dirs m g ↔ legal m g d := by
  unfold possible_dirs legal opposite neighbour
  cases d <;> cases hg : g.dir <;> simp

theorem possible_dirs_nil (m : List (List Int)) (g : Ghost) :
    possible_dirs m g = [] ↔ ∀ d, ¬ legal m g d := by
  constructor
  · intro h d hd
    have := (mem_possible_dirs m g d).2 hd
    rw [h] at this
    cases this
  · intro h
    apply List.eq_nil_iff_forall_not_mem.2
    intro d hd
    exact h d ((mem_possible_dirs m g d).1 hd)

/-- With an empty legal set the direction choice changes nothing. -/
theorem choose_dir_dead_end (m : List (List Int)) (g : Ghost) (r : Nat)
    (hempty : ∀ d, ¬ legal m g d) : choose_dir m g r = g := by
  have h := (possible_dirs_nil m g).2 hempty
  unfold choose_dir
  simp only [h, List.length_nil, gt_iff_lt, lt_self_iff_false, if_false, ite_self]

theorem advance_ghost_fields (g : Ghost) :
    (advance_ghost g).dir = g.dir ∧
    (advance_ghost g).x = g.x + GHOST_SPEED * dir_dx g.dir ∧
    (advance_ghost g).y = g.y + GHOST_SPEED * dir_dy g.dir := by
  obtain ⟨x, y, d, c⟩ := g
  cases d <;> simp [advance_ghost, dir_dx, dir_dy, GHOST_SPEED, sub_eq_add_neg]

theorem wrap_ghost_inside (g : Ghost) (h1 : -12 ≤ g.x) (h2 : g.x ≤ 468) : wrap_ghost g = g := by
  unfold wrap_ghost
  rw [tdiv_two_tile, tdiv_two_neg_tile]
  simp only [SCREEN_WIDTH, MAP_COLS, TILE_SIZE]
  have ha : ¬ g.x < -12 := by omega
  simp only [if_neg ha]
  rw [if_neg (by omega)]

/-- C13: for every grid-aligned adversary whose legal set is empty, and for every `rand()`
outcome, lines 320-333 leave the adversary's direction unchanged and advance it
`GHOST_SPEED = 1` pixel in that direction (one pixel left, right, up or down; an adversary
without a direction stays); unless it sits on the right teleport threshold, the teleport of
lines 335-336 changes nothing either. -/
theorem dead_end_keeps_direction (m : List (List Int)) (g : Ghost) (r : Nat)
    (hal : aligned g.x g.y) (hempty : ∀ d, ¬ legal m g d) :
    (advance_ghost (choose_dir m g r)).dir = g.dir ∧
    (advance_ghost (choose_dir m g r)).x = g.x + GHOST_SPEED * dir_dx g.dir ∧
    (advance_ghost (choose_dir m g r)).y = g.y + GHOST_SPEED * dir_dy g.dir ∧
    (g.dir ≠ DIR_NONE →
      |(advance_ghost (choose_dir m g r)).x - g.x| +
        |(advance_ghost (choose_dir m g r)).y - g.y| = 1) ∧
    (g.x < SCREEN_WIDTH + TILE_SIZE.tdiv 2 →
      move_ghost m g r = advance_ghost (choose_dir m g r)) := by
  rw [choose_dir_dead_end m g r hempty]
  obtain ⟨hd, hx, hy⟩ := advance_ghost_fields g
  refine ⟨hd, hx, hy, ?_, ?_⟩
  · intro hne
    rw [hx, hy]
    simp only [GHOST_SPEED, dir_dx, dir_dy]
    cases hdir : g.dir
    · norm_num
    · norm_num
    · norm_num
    · norm_num
    · exact absurd hdir hne
  · intro hlt
    rw [tdiv_two_tile] at hlt
    simp only [SCREEN_WIDTH, MAP_COLS, TILE_SIZE] at hlt
    have hpos : 0 ≤ g.x := ((aligned_iff g.x g.y).1 hal).1
    unfold move_ghost
    rw [choose_dir_dead_end m g r hempty]
    apply wrap_ghost_inside
    · rw [hx]
      simp only [GHOST_SPEED, dir_dx]
      cases g.dir <;> simp only <;> omega
    · rw [hx]
      simp only [GHOST_SPEED, dir_dx]
      cases g.dir <;> simp only <;> omega

/-- C13 at the dead end of the built-in grid at row 19, column 8, entered moving down: the
adversary keeps moving down, one pixel into the wall below. -/
theorem dead_end_keeps_direction_witness :
    (advance_ghost (choose_dir g_map_init ⟨204, 528, DIR_DOWN, ⟨255, 0, 0, 255⟩⟩ 7)).dir
      = DIR_DOWN ∧
    (advance_ghost (choose_dir g_map_init ⟨204, 528, DIR_DOWN, ⟨255, 0, 0, 255⟩⟩ 7)).y
      = 528 + GHOST_SPEED * dir_dy DIR_DOWN :=
  have h := dead_end_keeps_direction g_map_init ⟨204, 528, DIR_DOWN, ⟨255, 0, 0, 255⟩⟩ 7
    (by decide) (by intro d; cases d <;> decide)
  ⟨h.1, h.2.2.1⟩

/-- The chosen direction is in the legal set whenever that set is not empty. -/
theorem choose_dir_legal (m : List (List Int)) (g : Ghost) (r : Nat)
    (hal : aligned g.x g.y) (hex : ∃ d, legal m g d) :
    legal m g (choose_dir m g r).dir := by
  obtain ⟨d, hd⟩ := hex
  have hmem := (mem_possible_dirs m g d).2 hd
  have hlen : 0 < (possible_dirs m g).length := List.length_pos_of_mem hmem
  have hidx : r % (possible_dirs m g).length < (possible_dirs m g).length :=
    Nat.mod_lt _ hlen
  unfold aligned at hal
  unfold choose_dir
  simp only
  rw [if_pos hal, if_pos hlen]
  simp only
  rw [List.getD_eq_getElem _ _ hidx]
  exact (mem_possible_dirs m g _).1 (List.getElem_mem _)

/-- The direction choice never picks the exact reverse of the current direction. -/
theorem choose_dir_not_opposite (m : List (List Int)) (g : Ghost) (r : Nat) :
    ¬ opposite (choose_dir m g r).dir g.dir := by
  by_cases hal : aligned g.x g.y
  · by_cases hex : ∃ d, legal m g d
    · exact (choose_dir_legal m g r hal hex).2.2
    · rw [choose_dir_dead_end m g r (fun d hd => hex ⟨d, hd⟩)]
      unfold opposite
      cases g.dir <;> simp
  · rw [choose_dir_not_aligned m g r hal]
    unfold opposite
    cases g.dir <;> simp

/-- C15: the adversary's direction choice stays inside the legal set.  For every
grid-aligned adversary and every `rand()` outcome, if the legal set is non-empty the
direction chosen in that tick is a member of it; consequently, in a tick without collision
reset an adversary's new direction is never the exact reverse of its direction at the start
of the tick. -/
theorem choice_in_legal_set :
    (∀ (m : List (List Int)) (g : Ghost) (r : Nat), aligned g.x g.y → (∃ d, legal m g d) →
      legal m g (choose_dir m g r).dir) ∧
    (∀ (s : Game) (rnd : Fin 4 → Nat), no_reset rnd s → ∀ i : Fin 4,
      ¬ opposite ((update_game s rnd).g_ghosts.get i).dir (s.g_ghosts.get i).dir) := by
  refine ⟨choose_dir_legal, ?_⟩
  intro s rnd h i
  rw [(update_game_no_reset s rnd h).2 i]
  unfold move_ghost
  rw [advance_wrap_dir]
  exact choose_dir_not_opposite _ _ _

set_option maxRecDepth 100000 in
/-- C15 at adversary 1 on its start cell of the built-in grid (legal set: up and right): the
draw 5 picks index 1 of `possible`, the direction right, which is legal; and on the first
tick after `setup_game` adversary 1 does not reverse. -/
theorem choice_in_legal_set_witness :
    legal g_map_init ⟨228, 312, DIR_RIGHT, ⟨255, 184, 222, 255⟩⟩
      (choose_dir g_map_init ⟨228, 312, DIR_RIGHT, ⟨255, 184, 222, 255⟩⟩ 5).dir ∧
    ¬ opposite ((update_game (setup_game g_initial) (fun _ => 0)).g_ghosts.get 1).dir
      ((setup_game g_initial).g_ghosts.get 1).dir :=
  ⟨choice_in_legal_set.1 g_map_init ⟨228, 312, DIR_RIGHT, ⟨255, 184, 222, 255⟩⟩ 5
    (by decide) ⟨DIR_UP, by decide⟩,
   choice_in_legal_set.2 (setup_game g_initial) (fun _ => 0) (by decide) 1⟩

/-! ## The agent's direction update -/

/-- On a cell centre the grid logic of lines 277-303 computes the guarded reference rule. -/
theorem steer_aligned_dir (m : List (List Int)) (q : Pacman) (hal : aligned q.x q.y) :
    (steer_pacman m q).dir = guarded_turn m q := by
  unfold aligned at hal
  unfold steer_pacman guarded_turn cell_free
  simp only
  rw [if_pos hal]
  by_cases h1 : q.next_dir ≠ DIR_NONE
  · by_cases h2 : is_wall m
        ((step_cell q.next_dir (q.x.tdiv TILE_SIZE)
          ((q.y - SCOREBOARD_HEIGHT).tdiv TILE_SIZE)).1 * TILE_SIZE)
        ((step_cell q.next_dir (q.x.tdiv TILE_SIZE)
          ((q.y - SCOREBOARD_HEIGHT).tdiv TILE_SIZE)).2 * TILE_SIZE + SCOREBOARD_HEIGHT) = 0
    · simp only [h1, h2, if_true, and_self, not_false_eq_true, ne_eq]
      split_ifs <;> first | rfl | contradiction
    · simp only [h1, h2, if_true, if_false, and_false, not_false_eq_true, ne_eq]
      split_ifs <;> rfl
  · simp only [h1, if_false, false_and]
    split_ifs <;> first | rfl | contradiction

theorem update_game_pacman_cases (s : Game) (rnd : Fin 4 → Nat) :
    (update_game s rnd).g_pacman = pacman_step s.g_map s.g_pacman ∨
    (update_game s rnd).g_pacman = (reset_characters s).g_pacman := by
  have step : ∀ (t : Game) (i : Fin 4),
      (t.g_pacman = pacman_step s.g_map s.g_pacman ∨
        t.g_pacman = (reset_characters s).g_pacman) →
      ((ghost_iter rnd t i).g_pacman = pacman_step s.g_map s.g_pacman ∨
        (ghost_iter rnd t i).g_pacman = (reset_characters s).g_pacman) := by
    intro t i h
    rcases ghost_iter_cases rnd t i with ⟨-, e⟩ | ⟨-, -, e⟩ | ⟨-, -, e⟩
    · rw [e]; exact h
    · rw [e]; exact Or.inr rfl
    · rw [e]; exact h
  rw [update_game_eq]
  exact step _ 3 (step _ 2 (step _ 1 (step _ 0 (Or.inl (pacman_part_keeps s).1))))

theorem handle_input_next_dir (s : Game) (events : List Event)
    (h : s.g_pacman.next_dir ≠ DIR_NONE) :
    (handle_input s events).g_pacman.next_dir ≠ DIR_NONE := by
  unfold handle_input
  induction events generalizing s with
  | nil => exact h
  | cons e rest ih =>
    rw [List.foldl_cons]
    apply ih
    unfold handle_event
    split <;> first | exact h | simp

theorem pacman_step_next_dir (m : List (List Int)) (p : Pacman) :
    (pacman_step m p).next_dir = p.next_dir := by
  unfold pacman_step
  rw [steer_next_dir, (move_wrap_keeps p).2]

/-- In every state of a run the buffered direction is one of the four directions. -/
theorem reachable_next_dir (s : Game) (hs : Reachable s) :
    s.g_pacman.next_dir ≠ DIR_NONE := by
  induction hs with
  | setup => simp [setup_game, reset_characters]
  | input s events _ ih => exact handle_input_next_dir s events ih
  | tick s rnd _ ih =>
    rcases update_game_pacman_cases s rnd with e | e
    · rw [e, pacman_step_next_dir]; exact ih
    · rw [e]; simp [reset_characters]
  | render s _ ih => exact ih

/-- With a buffered direction that is one of the four directions the guard of line 279
holds, and the rule the code computes is the reference rule. -/
theorem guarded_turn_eq_reference (m : List (List Int)) (q : Pacman)
    (h : q.next_dir ≠ DIR_NONE) : guarded_turn m q = reference_turn m q := by
  unfold guarded_turn reference_turn
  simp only [h, ne_eq, not_false_eq_true, true_and]

/-- The agent's direction update for a buffered direction that is one of the four. -/
theorem pacman_step_turn (m : List (List Int)) (p : Pacman) (hne : p.next_dir ≠ DIR_NONE) :
    (aligned (wrap_pacman (move_pacman p)).x (wrap_pacman (move_pacman p)).y →
      (pacman_step m p).dir = reference_turn m (wrap_pacman (move_pacman p)) ∧
      (pacman_step m p).next_dir = p.next_dir) ∧
    (¬ aligned (wrap_pacman (move_pacman p)).x (wrap_pacman (move_pacman p)).y →
      (pacman_step m p).dir = p.dir ∧ (pacman_step m p).next_dir = p.next_dir) := by
  have hn : (wrap_pacman (move_pacman p)).next_dir ≠ DIR_NONE := by
    rw [(move_wrap_keeps p).2]; exact hne
  constructor
  · intro hal
    refine ⟨?_, pacman_step_next_dir m p⟩
    rw [← guarded_turn_eq_reference m _ hn]
    exact steer_aligned_dir m _ hal
  · intro hal
    refine ⟨?_, pacman_step_next_dir m p⟩
    unfold pacman_step
    rw [steer_not_aligned m _ hal]
    exact (move_wrap_keeps p).1

/-- C14: the agent's direction update at alignment equals the reference rule.  For every
state whose buffered direction `next_dir` is one of Up/Down/Left/Right (the only values the
code ever stores in it, lines 215 and 232-235), and so for every state of a run: if the
agent's post-move position is grid-aligned, then if the cell one step in `next_dir` is not a
wall the agent's direction becomes `next_dir`, otherwise it keeps its current direction;
then, if the cell one step ahead in the resulting direction is a wall, the direction becomes
`DIR_NONE`, otherwise it is kept.  When the position is not aligned the direction and
`next_dir` are unchanged. -/
theorem agent_turn_reference :
    (∀ (m : List (List Int)) (p : Pacman), p.next_dir ≠ DIR_NONE →
      (aligned (wrap_pacman (move_pacman p)).x (wrap_pacman (move_pacman p)).y →
        (pacman_step m p).dir = reference_turn m (wrap_pacman (move_pacman p)) ∧
        (pacman_step m p).next_dir = p.next_dir) ∧
      (¬ aligned (wrap_pacman (move_pacman p)).x (wrap_pacman (move_pacman p)).y →
        (pacman_step m p).dir = p.dir ∧ (pacman_step m p).next_dir = p.next_dir)) ∧
    (∀ s : Game, Reachable s →
      (aligned (wrap_pacman (move_pacman s.g_pacman)).x
          (wrap_pacman (move_pacman s.g_pacman)).y →
        (pacman_step s.g_map s.g_pacman).dir =
          reference_turn s.g_map (wrap_pacman (move_pacman s.g_pacman)) ∧
        (pacman_step s.g_map s.g_pacman).next_dir = s.g_pacman.next_dir) ∧
      (¬ aligned (wrap_pacman (move_pacman s.g_pacman)).x
          (wrap_pacman (move_pacman s.g_pacman)).y →
        (pacman_step s.g_map s.g_pacman).dir = s.g_pacman.dir ∧
        (pacman_step s.g_map s.g_pacman).next_dir = s.g_pacman.next_dir)) :=
  ⟨pacman_step_turn, fun s hs => pacman_step_turn s.g_map s.g_pacman (reachable_next_dir s hs)⟩

/-- C14 at the start of a run: the agent is not on a cell centre after its first step and
keeps moving right; and an agent that reaches the centre of row 16, column 14 with a wall
ahead and the buffered direction right stops; one that reaches the centre of row 16,
column 10 with the buffered direction up (a free cell) turns up. -/
theorem agent_turn_reference_witness :
    (pacman_step g_map_init (setup_game g_initial).g_pacman).dir = DIR_RIGHT ∧
    (pacman_step g_map_init ⟨346, 456, DIR_RIGHT, DIR_RIGHT, 0⟩).dir = DIR_NONE ∧
    (pacman_step g_map_init ⟨250, 456, DIR_RIGHT, DIR_UP, 0⟩).dir = DIR_UP :=
  ⟨by
    rw [((agent_turn_reference.1 g_map_init (setup_game g_initial).g_pacman
      (by decide)).2 (by decide)).1]
    decide,
   by
    rw [((agent_turn_reference.1 g_map_init ⟨346, 456, DIR_RIGHT, DIR_RIGHT, 0⟩
      (by decide)).1 (by decide)).1]
    decide,
   by
    rw [((agent_turn_reference.1 g_map_init ⟨250, 456, DIR_RIGHT, DIR_UP, 0⟩
      (by decide)).1 (by decide)).1]
    decide⟩

/-! ## The agent never enters a wall -/

theorem tdiv_floor (x : Int) (h : 0 ≤ x) : x.tdiv TILE_SIZE = x / 24 := by
  simp only [TILE_SIZE]
  rw [tdiv_tile, if_pos h]

theorem cell_free_in_grid (m : List (List Int)) (c r : Int) (h : cell_free m c r)
    (h1 : 0 ≤ c) (h2 : c ≤ 18) : g_map_at m r c ≠ 1 := by
  rw [cell_free_iff] at h
  rcases h with ⟨-, hc⟩ | ⟨-, -, -, -, e⟩
  · omega
  · exact e

/-- An agent that satisfies the invariant is not inside a wall. -/
theorem agent_inv_off_walls (m : List (List Int)) (p : Pacman) (h : agent_inv m p) :
    off_walls m p := by
  unfold off_walls
  simp only [TUNNEL_ROW]
  rcases h with ⟨c, r, hc, hc2, hx, hy, hf, -⟩ |
    ⟨c, r, k, hc, hc2, hk0, hk, hpar, hkz, hx, hy, hf1, hf2, -⟩ |
    ⟨c, r, k, hc, hk0, hk, hpar, hx, hy, hf1, hf2, -⟩
  · -- on the centre of cell (c, r)
    have hb := cell_free_bounds m c r hf
    have hrow : (p.y - SCOREBOARD_HEIGHT).tdiv TILE_SIZE = r := by
      rw [tdiv_floor _ (by simp only [SCOREBOARD_HEIGHT]; omega)]
      simp only [SCOREBOARD_HEIGHT]; omega
    have hcol : p.x.tdiv TILE_SIZE = c := by
      rw [tdiv_floor _ (by omega)]; omega
    rw [hrow, hcol]
    refine ⟨hb.1, hb.2.1, ?_⟩
    by_cases h18 : c ≤ 18
    · exact Or.inl ⟨hc, h18, cell_free_in_grid m c r hf hc h18⟩
    · exact Or.inr ⟨by omega, Or.inr (by omega)⟩
  · -- between the centres of (c, r) and (c + 1, r)
    have hb1 := cell_free_bounds m c r hf1
    have hb2 := cell_free_bounds m (c + 1) r hf2
    have hrow : (p.y - SCOREBOARD_HEIGHT).tdiv TILE_SIZE = r := by
      rw [tdiv_floor _ (by simp only [SCOREBOARD_HEIGHT]; omega)]
      simp only [SCOREBOARD_HEIGHT]; omega
    rw [hrow]
    refine ⟨hb1.1, hb1.2.1, ?_⟩
    by_cases hneg : p.x < 0
    · exact Or.inr ⟨by omega, Or.inl (by omega)⟩
    · by_cases hk12 : k < 12
      · have hcol : p.x.tdiv TILE_SIZE = c := by
          rw [tdiv_floor _ (by omega)]; omega
        rw [hcol]
        exact Or.inl ⟨by omega, hc2, cell_free_in_grid m c r hf1 (by omega) hc2⟩
      · have hcol : p.x.tdiv TILE_SIZE = c + 1 := by
          rw [tdiv_floor _ (by omega)]; omega
        rw [hcol]
        by_cases h18 : c + 1 ≤ 18
        · exact Or.inl ⟨by omega, h18, cell_free_in_grid m (c + 1) r hf2 (by omega) h18⟩
        · exact Or.inr ⟨by omega, Or.inr (by omega)⟩
  · -- between the centres of (c, r) and (c, r + 1)
    have hb1 := cell_free_bounds m c r hf1
    have hb2 := cell_free_bounds m c (r + 1) hf2
    have hc18 : c ≤ 18 := by omega
    have hcol : p.x.tdiv TILE_SIZE = c := by
      rw [tdiv_floor _ (by omega)]; omega
    rw [hcol]
    by_cases hk12 : k < 12
    · have hrow : (p.y - SCOREBOARD_HEIGHT).tdiv TILE_SIZE = r := by
        rw [tdiv_floor _ (by simp only [SCOREBOARD_HEIGHT]; omega)]
        simp only [SCOREBOARD_HEIGHT]; omega
      rw [hrow]
      exact ⟨hb1.1, hb1.2.1, Or.inl ⟨hc, hc18, cell_free_in_grid m c r hf1 hc hc18⟩⟩
    · have hrow : (p.y - SCOREBOARD_HEIGHT).tdiv TILE_SIZE = r + 1 := by
        rw [tdiv_floor _ (by simp only [SCOREBOARD_HEIGHT]; omega)]
        simp only [SCOREBOARD_HEIGHT]; omega
      rw [hrow]
      exact ⟨hb2.1, hb2.2.1, Or.inl ⟨hc, hc18, cell_free_in_grid m c (r + 1) hf2 hc hc18⟩⟩

/-- C16: the agent never enters a wall.  In every state reachable from the `setup_game`
state by `update_game` ticks (any buffered direction before each tick, any `rand()`
outcomes), the agent's row `(y - 60) / 24` is within 0..20 and either its column `x / 24` is
within 0..18 and `g_map[row][col]` is not Wall, or the agent is on `TUNNEL_ROW` in the
wraparound margin (`x` in [-12, -1] or [456, 468]). -/
theorem agent_never_in_wall (s : Game) (hs : Reachable s) : off_walls s.g_map s.g_pacman := by
  obtain ⟨hw, hinv⟩ := reachable_inv s hs
  exact agent_inv_off_walls s.g_map s.g_pacman
    (agent_inv_of_walls g_map_init s.g_map _ (fun c r => (hw c r).symm) hinv)

/-- C16 after `setup_game`, the input "up" and one tick. -/
theorem agent_never_in_wall_witness :
    off_walls
      (update_game (handle_input (setup_game g_initial) [Event.SDL_KEYDOWN Key.SDLK_UP])
        (fun _ => 0)).g_map
      (update_game (handle_input (setup_game g_initial) [Event.SDL_KEYDOWN Key.SDLK_UP])
        (fun _ => 0)).g_pacman :=
  agent_never_in_wall _ (Reachable.tick _ _ (Reachable.input _ _ Reachable.setup))

/-! ## The score in closed form -/

set_option maxRecDepth 100000 in
theorem total_pellets_eq : total_pellets = 145 := by
  decide

/-- The agent's part of a tick on the score and the pellet counter, for every state. -/
theorem pacman_part_monotone (s : Game) :
    s.g_score ≤ (pacman_part s).g_score ∧ (pacman_part s).g_pellets_left ≤ s.g_pellets_left := by
  by_cases hp : on_pellet s.g_map (pacman_step s.g_map s.g_pacman)
  · obtain ⟨-, h2, h3, -⟩ := pacman_part_on_pellet s hp
    rw [h2, h3]
    split_ifs <;> omega
  · rw [pacman_part_off_pellet s hp]
    exact ⟨le_refl _, le_refl _⟩

/-- The agent's part of a tick keeps the closed form of the score. -/
theorem pacman_part_score (s : Game)
    (hc : s.g_pellets_left = pellet_tiles s.g_map)
    (hs : s.g_score = score_of s.g_pellets_left)
    (hle : s.g_pellets_left ≤ total_pellets) :
    (pacman_part s).g_score = score_of (pacman_part s).g_pellets_left ∧
    0 ≤ (pacman_part s).g_pellets_left ∧ (pacman_part s).g_pellets_left ≤ total_pellets := by
  by_cases hp : on_pellet s.g_map (pacman_step s.g_map s.g_pacman)
  · obtain ⟨-, h2, h3, -⟩ := pacman_part_on_pellet s hp
    have hset := pellet_tiles_set s.g_map _ _ hp.1 hp.2
    have hpos : (1 : Int) ≤ s.g_pellets_left := by rw [hc]; omega
    rw [h2, h3, hs]
    unfold score_of
    refine ⟨?_, by omega, by omega⟩
    rw [if_neg (by omega)]
    split_ifs <;> omega
  · rw [pacman_part_off_pellet s hp]
    refine ⟨hs, ?_, hle⟩
    show 0 ≤ s.g_pellets_left
    rw [hc]; omega

/-- C17: the score in closed form.  With `P` the number of Pellet tiles counted by
`setup_game` (`P > 0` for the built-in map), in every state reachable from the `setup_game`
state by `update_game` ticks, `g_score = 10 * (P - g_pellets_left) + (1000 if
g_pellets_left = 0, else 0)` and `0 <= g_pellets_left <= P`; and in every tick the score
does not decrease and the pellet count does not increase. -/
theorem score_closed_form :
    0 < total_pellets ∧
    (∀ s : Game, Reachable s →
      s.g_score = score_of s.g_pellets_left ∧
      0 ≤ s.g_pellets_left ∧ s.g_pellets_left ≤ total_pellets) ∧
    (∀ (s : Game) (rnd : Fin 4 → Nat),
      s.g_score ≤ (update_game s rnd).g_score ∧
      (update_game s rnd).g_pellets_left ≤ s.g_pellets_left) := by
  have hP : 0 < total_pellets := by rw [total_pellets_eq]; omega
  refine ⟨hP, ?_, ?_⟩
  · intro s hs
    have key : s.g_pellets_left = pellet_tiles s.g_map ∧
        s.g_score = score_of s.g_pellets_left ∧ s.g_pellets_left ≤ total_pellets := by
      induction hs with
      | setup =>
        refine ⟨?_, ?_, le_refl _⟩
        · simp only [setup_game, reset_characters]
          exact count_loop_eq _
        · unfold score_of
          have e : (setup_game g_initial).g_pellets_left = total_pellets := rfl
          have e2 : (setup_game g_initial).g_score = 0 := rfl
          rw [e, e2, if_neg (by omega)]
          omega
      | input s events _ ih =>
        obtain ⟨h1, h2, h3, -⟩ := handle_input_keeps s events
        rw [h1, h2, h3]
        exact ih
      | tick s rnd _ ih =>
        obtain ⟨k1, k2, k3, -⟩ := update_game_keeps s rnd
        obtain ⟨a, -, c⟩ := pacman_part_score s ih.1 ih.2.1 ih.2.2
        rw [k1, k2, k3]
        exact ⟨pacman_part_pellets s ih.1, a, c⟩
      | render s _ ih => exact ih
    refine ⟨key.2.1, ?_, key.2.2⟩
    rw [key.1]
    omega
  · intro s rnd
    obtain ⟨-, k2, k3, -⟩ := update_game_keeps s rnd
    rw [k2, k3]
    exact pacman_part_monotone s

/-- C17 after `setup_game` and one tick: the score is the closed form of the counter. -/
theorem score_closed_form_witness :
    (update_game (setup_game g_initial) (fun _ => 0)).g_score =
      score_of (update_game (setup_game g_initial) (fun _ => 0)).g_pellets_left :=
  (score_closed_form.2.1 _ (Reachable.tick _ _ Reachable.setup)).1

/-! ## At most one life per tick while lives remain -/

/-- One iteration of the adversary loop, started with at least two lives or after the reset
of an earlier iteration of the same tick: either no life has been lost so far, or exactly one
has and the agent and the adversaries from index `i` on are at their start positions. -/
theorem ghost_iter_one_life (rnd : Fin 4 → Nat) (s t : Game) (i : Fin 4)
    (hL : 2 ≤ s.g_lives)
    (h : t.g_lives = s.g_lives ∨
      (t.g_lives = s.g_lives - 1 ∧ t.g_pacman = (reset_characters s).g_pacman ∧
        ∀ k : Fin 4, i.val ≤ k.val → t.g_ghosts.get k = (reset_characters s).g_ghosts.get k)) :
    (ghost_iter rnd t i).g_lives = s.g_lives ∨
      ((ghost_iter rnd t i).g_lives = s.g_lives - 1 ∧
        (ghost_iter rnd t i).g_pacman = (reset_characters s).g_pacman ∧
        ∀ k : Fin 4, i.val + 1 ≤ k.val →
          (ghost_iter rnd t i).g_ghosts.get k = (reset_characters s).g_ghosts.get k) := by
  rcases h with h | ⟨hl, hp, hg⟩
  · rcases ghost_iter_cases rnd t i with ⟨-, e⟩ | ⟨-, -, e⟩ | ⟨-, hn, -⟩
    · left; rw [e]; exact h
    · right
      rw [e]
      exact ⟨by rw [← h]; rfl, rfl, fun _ _ => rfl⟩
    · omega
  · right
    rw [ghost_iter_after_reset rnd t i hp (hg i (le_refl _))]
    refine ⟨hl, hp, ?_⟩
    intro k hk
    rw [ghost_move_get, if_neg (by intro e; rw [e] at hk; omega)]
    exact hg k (by omega)

/-- C18: for every state with `g_lives >= 2` (arbitrary entity positions and directions, any
`rand()` outcomes), one `update_game` tick lowers `g_lives` by at most 1: after the first
collision resets all entities, no later adversary in the same tick overlaps the agent, so at
most one iteration detects a collision. -/
theorem one_life_per_tick (s : Game) (rnd : Fin 4 → Nat) (hL : 2 ≤ s.g_lives) :
    s.g_lives - 1 ≤ (update_game s rnd).g_lives ∧
    (update_game s rnd).g_lives ≤ s.g_lives ∧
    hit_count rnd s ≤ 1 := by
  have h0 : (pacman_part s).g_lives = s.g_lives := (pacman_part_keeps s).2.2
  have a0 := ghost_iter_one_life rnd s (pacman_part s) 0 hL (Or.inl h0)
  have a1 := ghost_iter_one_life rnd s _ 1 hL a0
  have a2 := ghost_iter_one_life rnd s _ 2 hL a1
  have a3 := ghost_iter_one_life rnd s _ 3 hL a2
  rw [← update_game_eq] at a3
  have hlives := update_game_lives s rnd
  rcases a3 with e | ⟨e, -, -⟩ <;> omega

set_option maxRecDepth 100000 in
/-- C18 on the state with three lives in which adversary 0 runs into the agent: the tick
ends with two lives. -/
theorem one_life_per_tick_witness :
    (update_game early_hit_state (fun _ => 0)).g_lives = 2 ∧
    hit_count (fun _ => 0) early_hit_state ≤ 1 :=
  have h := one_life_per_tick early_hit_state (fun _ => 0) (by decide)
  ⟨by decide, h.2.2⟩

/-! ## Lives below zero -/

set_option maxRecDepth 100000 in
/-- C19: `g_lives` is not bounded below by zero.  In `double_hit_state` the game is running
with `g_lives = 1` and adversaries 0 and 1 both overlap the agent's box after their moves; a
single `update_game` tick ends with `g_lives = -1`, and in the same pass of the main loop
`render_game` passes that -1 to `draw_number` as the number of lives, before the loop tests
`g_game_over` (which the tick has set). -/
theorem lives_below_zero :
    double_hit_state.g_lives = 1 ∧ double_hit_state.g_game_over = 0 ∧
    hit (fun _ => 0) double_hit_state 0 = true ∧ hit (fun _ => 0) double_hit_state 1 = true ∧
    (update_game double_hit_state (fun _ => 0)).g_lives = -1 ∧
    (update_game double_hit_state (fun _ => 0)).g_game_over = 1 ∧
    frame_numbers double_hit_state [] (fun _ => 0) = [0, -1] ∧
    (frame double_hit_state [] (fun _ => 0)).g_lives = -1 := by
  decide

/-! ## Remainders of positions in a run -/

/-- The state after the 277 frames of `tunnel_draws`: adversary 0 is at `x = -1` on the
tunnel row; no life was lost and the game is not over. -/
theorem tunnel_run_end :
    (run_checked tunnel_draws (setup_game g_initial)).g_ghosts.g0.x = -1 ∧
    (run_checked tunnel_draws (setup_game g_initial)).g_ghosts.g0.y = 312 ∧
    (run_checked tunnel_draws (setup_game g_initial)).g_lives = 3 ∧
    (run_checked tunnel_draws (setup_game g_initial)).g_game_over = 0 := by
  decide!

/-- C11 as stated fails: the state after the 277 frames of `tunnel_draws` (from the state
after `setup_game`, no input, no collision, game not over) is reachable, and in it
adversary 0 is at `x = -1`, where the C remainder `x % TILE_SIZE` is -1. -/
theorem all_remainders_ok_counterexample :
    Reachable (run_quiet tunnel_draws (setup_game g_initial)) ∧
    (run_quiet tunnel_draws (setup_game g_initial)).g_game_over = 0 ∧
    ((run_quiet tunnel_draws (setup_game g_initial)).g_ghosts.get 0).x.tmod TILE_SIZE = -1 ∧
    ¬ all_remainders_ok (run_quiet tunnel_draws (setup_game g_initial)) := by
  obtain ⟨h1, -, -, h4⟩ := tunnel_run_end
  rw [run_checked_eq] at h1 h4
  have hx : ((run_quiet tunnel_draws (setup_game g_initial)).g_ghosts.get 0).x.tmod TILE_SIZE
      = -1 := by
    rw [ghosts_get_zero, h1]
    decide
  refine ⟨reachable_run_quiet _ _ Reachable.setup, h4, hx, ?_⟩
  rintro ⟨-, hg⟩
  have h0 := (hg 0).1
  rw [hx] at h0
  omega

/-! ## The adversaries stay below the top of the grid -/

/-- The table of adversary cells is closed: whatever direction an adversary leaves an
allowed cell centre with, the centre it reaches next is allowed. -/
theorem cells_closed :
    ∀ r : Nat, r < 21 → ∀ c : Nat, c < 20 →
      ∀ d ∈ [DIR_UP, DIR_DOWN, DIR_LEFT, DIR_RIGHT], in_cells c r d = true →
        ∀ d2 ∈ next_dirs c r d, safe (arrival c r d2).1 (arrival c r d2).2 d2 := by
  decide!
theorem is_wall_zero_or_one (m : List (List Int)) (x y : Int) :
    is_wall m x y = 0 ∨ is_wall m x y = 1 := by
  unfold is_wall
  simp only
  split_ifs <;> simp

/-- The value of `is_wall` at a pixel is its value at the cell of that pixel. -/
theorem is_wall_eq_cell (m : List (List Int)) (x y : Int) :
    is_wall m x y =
      is_wall m (x.tdiv TILE_SIZE * TILE_SIZE)
        ((y - SCOREBOARD_HEIGHT).tdiv TILE_SIZE * TILE_SIZE + SCOREBOARD_HEIGHT) := by
  rw [is_wall_cell_eq]
  simp only [is_wall, TUNNEL_ROW, MAP_COLS, MAP_ROWS]

/-- On a grid with the walls of the built-in grid `is_wall` answers as on the built-in
grid, at every pixel. -/
theorem is_wall_kept (m : List (List Int)) (hw : walls_kept m) (x y : Int) :
    is_wall m x y = is_wall g_map_init x y := by
  rw [is_wall_eq_cell m, is_wall_eq_cell g_map_init]
  have h := hw (x.tdiv TILE_SIZE) ((y - SCOREBOARD_HEIGHT).tdiv TILE_SIZE)
  unfold cell_free at h
  rcases is_wall_zero_or_one m (x.tdiv TILE_SIZE * TILE_SIZE)
      ((y - SCOREBOARD_HEIGHT).tdiv TILE_SIZE * TILE_SIZE + SCOREBOARD_HEIGHT) with a | a <;>
    rcases is_wall_zero_or_one g_map_init (x.tdiv TILE_SIZE * TILE_SIZE)
      ((y - SCOREBOARD_HEIGHT).tdiv TILE_SIZE * TILE_SIZE + SCOREBOARD_HEIGHT) with b | b
  · rw [a, b]
  · have := h.1 a
    rw [b] at this
    cases this
  · have := h.2 b
    rw [a] at this
    cases this
  · rw [a, b]

theorem possible_dirs_kept (m : List (List Int)) (hw : walls_kept m) (g : Ghost) :
    possible_dirs m g = possible_dirs g_map_init g := by
  unfold possible_dirs
  simp only [is_wall_kept m hw]

theorem possible_dirs_at (m : List (List Int)) (g : Ghost) (c r : Int)
    (hx : g.x = 24 * c + 12) (hy : g.y = 24 * r + 72) :
    possible_dirs m g = possible_dirs m ⟨24 * c + 12, 24 * r + 72, g.dir, ⟨0, 0, 0, 0⟩⟩ := by
  obtain ⟨x, y, d, col⟩ := g
  simp only at hx hy
  subst hx hy
  rfl

/-- Below the grid every pixel is a wall. -/
theorem is_wall_below (m : List (List Int)) (x y : Int) (h : 564 ≤ y) : is_wall m x y = 1 := by
  have hrow : 21 ≤ (y - SCOREBOARD_HEIGHT).tdiv TILE_SIZE := by
    simp only [SCOREBOARD_HEIGHT, TILE_SIZE]
    rw [tdiv_tile, if_pos (by omega)]
    omega
  unfold is_wall
  simp only [TUNNEL_ROW, MAP_COLS, MAP_ROWS]
  rw [if_neg (by omega), if_pos (by omega)]

/-- The allowed adversary states are closed under leaving a cell centre. -/
theorem safe_closed (c r : Int) (d d2 : Direction) (h : safe c r d)
    (hd : d2 ∈ next_dirs c r d) : safe (arrival c r d2).1 (arrival c r d2).2 d2 := by
  obtain ⟨h1, h2, h3, h4, h5⟩ := h
  by_cases hr : r ≤ 20
  · rw [if_pos hr] at h5
    obtain ⟨c', rfl⟩ := Int.eq_ofNat_of_zero_le h1
    obtain ⟨r', rfl⟩ := Int.eq_ofNat_of_zero_le (by omega : (0 : Int) ≤ r)
    simp only [Int.ofNat_eq_coe, Int.toNat_ofNat] at h5
    have hmem : d ∈ [DIR_UP, DIR_DOWN, DIR_LEFT, DIR_RIGHT] := by
      cases d <;> simp at h4 ⊢
    exact cells_closed r' (by omega) c' (by omega) d hmem h5 d2 hd
  · rw [if_neg hr] at h5
    obtain ⟨rfl, h6⟩ := h5
    have hp : possible_dirs g_map_init ⟨24 * c + 12, 24 * r + 72, DIR_DOWN, ⟨0, 0, 0, 0⟩⟩
        = [] := by
      have w1 := is_wall_below g_map_init (24 * c + 12) (24 * r + 72 + 24) (by omega)
      have w2 := is_wall_below g_map_init (24 * c + 12 - 24) (24 * r + 72) (by omega)
      have w3 := is_wall_below g_map_init (24 * c + 12 + 24) (24 * r + 72) (by omega)
      unfold possible_dirs
      simp [TILE_SIZE, w1, w2, w3]
    unfold next_dirs at hd
    rw [if_pos hp] at hd
    simp only [List.mem_singleton] at hd
    subst hd
    simp only [arrival, safe]
    refine ⟨h1, h2, by omega, by simp, ?_⟩
    rw [if_neg (by omega)]
    constructor <;> trivial

/-- On an allowed cell centre the direction choice picks one of `next_dirs`. -/
theorem choose_dir_next (m : List (List Int)) (hw : walls_kept m) (g : Ghost) (rnd : Nat)
    (c r : Int) (hx : g.x = 24 * c + 12) (hy : g.y = 24 * r + 72) (hs : safe c r g.dir) :
    (choose_dir m g rnd).dir ∈ next_dirs c r g.dir := by
  have hP : possible_dirs m g =
      possible_dirs g_map_init ⟨24 * c + 12, 24 * r + 72, g.dir, ⟨0, 0, 0, 0⟩⟩ := by
    rw [possible_dirs_kept m hw, possible_dirs_at g_map_init g c r hx hy]
  have hal : aligned g.x g.y := by
    unfold aligned
    rw [aligned_iff]
    obtain ⟨h1, -, h3, -⟩ := hs
    omega
  unfold next_dirs
  rw [← hP]
  by_cases he : possible_dirs m g = []
  · rw [if_pos he, choose_dir_dead_end m g rnd ((possible_dirs_nil m g).1 he)]
    simp
  · rw [if_neg he]
    obtain ⟨d, hd⟩ := List.exists_mem_of_ne_nil _ he
    exact (mem_possible_dirs m g _).2
      (choose_dir_legal m g rnd hal ⟨d, (mem_possible_dirs m g d).1 hd⟩)

theorem wrap_ghost_fields (g : Ghost) :
    (wrap_ghost g).dir = g.dir ∧ (wrap_ghost g).y = g.y ∧
    (wrap_ghost g).x = (if g.x < -12 then 468 else if g.x > 468 then -12 else g.x) := by
  obtain ⟨x, y, d, col⟩ := g
  unfold wrap_ghost
  rw [tdiv_two_tile, tdiv_two_neg_tile]
  simp only [SCREEN_WIDTH, MAP_COLS, TILE_SIZE]
  have e : (19 : Int) * 24 + 12 = 468 := by norm_num
  rw [e]
  split_ifs <;> first | exact ⟨rfl, rfl, rfl⟩ | (simp only at *; omega)

/-- The whole movement step of an adversary in terms of the direction it chooses. -/
theorem move_ghost_fields (m : List (List Int)) (g : Ghost) (rnd : Nat) :
    (move_ghost m g rnd).dir = (choose_dir m g rnd).dir ∧
    (move_ghost m g rnd).y = g.y + dir_dy (choose_dir m g rnd).dir ∧
    (move_ghost m g rnd).x =
      (if g.x + dir_dx (choose_dir m g rnd).dir < -12 then 468
       else if g.x + dir_dx (choose_dir m g rnd).dir > 468 then -12
       else g.x + dir_dx (choose_dir m g rnd).dir) := by
  obtain ⟨cx, cy, -⟩ := choose_dir_pos m g rnd
  obtain ⟨ad, ax, ay⟩ := advance_ghost_fields (choose_dir m g rnd)
  obtain ⟨wd, wy, wx⟩ := wrap_ghost_fields (advance_ghost (choose_dir m g rnd))
  unfold move_ghost
  simp only [GHOST_SPEED, one_mul] at ax ay
  rw [wd, wy, wx, ad, ax, ay, cx, cy]
  exact ⟨rfl, rfl, rfl⟩
theorem safe_bounds (c r : Int) (d : Direction) (h : safe c r d) :
    0 ≤ c ∧ c ≤ 19 ∧ 1 ≤ r ∧ d ≠ DIR_NONE :=
  ⟨h.1, h.2.1, h.2.2.1, h.2.2.2.1⟩

/-- The movement step of an adversary keeps its invariant on every grid that has the walls
of the built-in grid. -/
theorem move_ghost_inv (m : List (List Int)) (hw : walls_kept m) (g : Ghost) (rnd : Nat)
    (h : ghost_inv g) : ghost_inv (move_ghost m g rnd) := by
  obtain ⟨hd, hy, hx⟩ := move_ghost_fields m g rnd
  unfold ghost_inv
  rw [hd, hy, hx]
  rcases h with ⟨c, r, gx, gy, hs⟩ | ⟨gd, c, r, k, k1, k2, gx, gy, hs⟩ |
    ⟨gd, c, r, k, k1, k2, gx, gy, hs⟩ | ⟨gd, c, r, k, k1, k2, c18, gx, gy, hs⟩ |
    ⟨gd, r, x1, x2, gy, hs⟩ | ⟨gd, c, r, k, k1, k2, gx, gy, hs⟩
  · -- on a cell centre: the adversary chooses and leaves
    obtain ⟨b1, b2, b3, -⟩ := safe_bounds c r g.dir hs
    have hnext := safe_closed c r g.dir _ hs (choose_dir_next m hw g rnd c r gx gy hs)
    cases hc : (choose_dir m g rnd).dir
    all_goals
      rw [hc] at hnext
      simp only [arrival] at hnext
      simp only [dir_dx, dir_dy]
    · -- up
      refine Or.inr (Or.inl ⟨trivial, c, r - 1, 23, by omega, by omega, ?_, by omega, hnext⟩)
      split_ifs <;> omega
    · -- down
      refine Or.inr (Or.inr (Or.inl ⟨trivial, c, r + 1, 23, by omega, by omega, ?_, by omega,
        hnext⟩))
      split_ifs <;> omega
    · -- left
      by_cases hc0 : 1 ≤ c
      · rw [if_pos hc0] at hnext
        refine Or.inr (Or.inr (Or.inr (Or.inl ⟨trivial, c - 1, r, 23, by omega, by omega,
          by omega, ?_, by omega, hnext⟩)))
        split_ifs <;> omega
      · rw [if_neg hc0] at hnext
        refine Or.inr (Or.inr (Or.inr (Or.inr (Or.inl ⟨trivial, r, ?_, ?_, by omega, hnext⟩))))
        · split_ifs <;> omega
        · split_ifs <;> omega
    · -- right
      by_cases hc18 : c ≤ 18
      · rw [if_pos hc18] at hnext
        refine Or.inr (Or.inr (Or.inr (Or.inr (Or.inr ⟨trivial, c + 1, r, 23, by omega,
          Or.inl (by omega), ?_, by omega, hnext⟩))))
        split_ifs <;> omega
      · rw [if_neg hc18] at hnext
        refine Or.inr (Or.inr (Or.inr (Or.inr (Or.inr ⟨trivial, 0, r, 24, by omega,
          Or.inr ⟨rfl, rfl⟩, ?_, by omega, hnext⟩))))
        split_ifs <;> omega
    · -- no direction: excluded
      exact absurd rfl (safe_bounds _ _ _ hnext).2.2.2
  · -- on its way up
    obtain ⟨b1, b2, b3, -⟩ := safe_bounds c r DIR_UP hs
    have hna : ¬ aligned g.x g.y := by unfold aligned; rw [aligned_iff]; omega
    rw [choose_dir_not_aligned m g rnd hna, gd]
    simp only [dir_dx, dir_dy]
    by_cases hk : k = 1
    · refine Or.inl ⟨c, r, ?_, by omega, hs⟩
      split_ifs <;> omega
    · refine Or.inr (Or.inl ⟨trivial, c, r, k - 1, by omega, by omega, ?_, by omega, hs⟩)
      split_ifs <;> omega
  · -- on its way down
    obtain ⟨b1, b2, b3, -⟩ := safe_bounds c r DIR_DOWN hs
    have hna : ¬ aligned g.x g.y := by unfold aligned; rw [aligned_iff]; omega
    rw [choose_dir_not_aligned m g rnd hna, gd]
    simp only [dir_dx, dir_dy]
    by_cases hk : k = 1
    · refine Or.inl ⟨c, r, ?_, by omega, hs⟩
      split_ifs <;> omega
    · refine Or.inr (Or.inr (Or.inl ⟨trivial, c, r, k - 1, by omega, by omega, ?_, by omega,
        hs⟩))
      split_ifs <;> omega
  · -- on its way left
    obtain ⟨b1, b2, b3, -⟩ := safe_bounds c r DIR_LEFT hs
    have hna : ¬ aligned g.x g.y := by unfold aligned; rw [aligned_iff]; omega
    rw [choose_dir_not_aligned m g rnd hna, gd]
    simp only [dir_dx, dir_dy]
    by_cases hk : k = 1
    · refine Or.inl ⟨c, r, ?_, by omega, hs⟩
      split_ifs <;> omega
    · refine Or.inr (Or.inr (Or.inr (Or.inl ⟨trivial, c, r, k - 1, by omega, by omega, c18, ?_,
        by omega, hs⟩)))
      split_ifs <;> omega
  · -- in the left margin, heading for the teleport
    have hna : ¬ aligned g.x g.y := by unfold aligned; rw [aligned_iff]; omega
    rw [choose_dir_not_aligned m g rnd hna, gd]
    simp only [dir_dx, dir_dy]
    by_cases hk : g.x = -12
    · refine Or.inl ⟨19, r, ?_, by omega, hs⟩
      split_ifs <;> omega
    · refine Or.inr (Or.inr (Or.inr (Or.inr (Or.inl ⟨trivial, r, ?_, ?_, by omega, hs⟩))))
      · split_ifs <;> omega
      · split_ifs <;> omega
  · -- on its way right
    obtain ⟨b1, b2, b3, -⟩ := safe_bounds c r DIR_RIGHT hs
    have hna : ¬ aligned g.x g.y := by unfold aligned; rw [aligned_iff]; omega
    rw [choose_dir_not_aligned m g rnd hna, gd]
    simp only [dir_dx, dir_dy]
    by_cases hk : k = 1
    · refine Or.inl ⟨c, r, ?_, by omega, hs⟩
      split_ifs <;> omega
    · refine Or.inr (Or.inr (Or.inr (Or.inr (Or.inr ⟨trivial, c, r, k - 1, by omega,
        Or.inl (by omega), ?_, by omega, hs⟩))))
      split_ifs <;> omega
/-- The adversaries as `reset_characters` places them satisfy the invariant. -/
theorem reset_ghosts_inv (s : Game) (j : Fin 4) :
    ghost_inv ((reset_characters s).g_ghosts.get j) := by
  rcases fin_four_cases j with rfl | rfl | rfl | rfl
  · exact Or.inl ⟨9, 8, by simp only [reset_characters, Ghosts.get, TILE_SIZE, tdiv_24_2]; omega,
      by simp only [reset_characters, Ghosts.get, TILE_SIZE, SCOREBOARD_HEIGHT, tdiv_24_2]; omega,
      by show safe 9 8 DIR_LEFT; unfold safe; decide⟩
  · exact Or.inl ⟨9, 10, by simp only [reset_characters, Ghosts.get, TILE_SIZE, tdiv_24_2]; omega,
      by simp only [reset_characters, Ghosts.get, TILE_SIZE, SCOREBOARD_HEIGHT, tdiv_24_2]; omega,
      by show safe 9 10 DIR_RIGHT; unfold safe; decide⟩
  · exact Or.inl ⟨8, 10, by simp only [reset_characters, Ghosts.get, TILE_SIZE, tdiv_24_2]; omega,
      by simp only [reset_characters, Ghosts.get, TILE_SIZE, SCOREBOARD_HEIGHT, tdiv_24_2]; omega,
      by show safe 8 10 DIR_UP; unfold safe; decide⟩
  · exact Or.inl ⟨10, 10,
      by simp only [reset_characters, Ghosts.get, TILE_SIZE, tdiv_24_2]; omega,
      by simp only [reset_characters, Ghosts.get, TILE_SIZE, SCOREBOARD_HEIGHT, tdiv_24_2]; omega,
      by show safe 10 10 DIR_UP; unfold safe; decide⟩

theorem ghost_iter_ghosts_inv (rnd : Fin 4 → Nat) (t : Game) (i : Fin 4)
    (hw : walls_kept t.g_map) (h : ∀ j, ghost_inv (t.g_ghosts.get j)) :
    ∀ j, ghost_inv ((ghost_iter rnd t i).g_ghosts.get j) := by
  have hmove : ∀ j, ghost_inv ((ghost_move rnd t i).g_ghosts.get j) := by
    intro j
    rw [ghost_move_get]
    split_ifs
    · exact move_ghost_inv t.g_map hw _ _ (h i)
    · exact h j
  intro j
  rcases ghost_iter_cases rnd t i with ⟨-, e⟩ | ⟨-, -, e⟩ | ⟨-, -, e⟩
  · rw [e]; exact hmove j
  · rw [e]; exact reset_ghosts_inv _ j
  · rw [e]; exact hmove j

theorem update_game_ghosts_inv (s : Game) (rnd : Fin 4 → Nat)
    (hw : walls_kept s.g_map) (h : ∀ j, ghost_inv (s.g_ghosts.get j)) :
    ∀ j, ghost_inv ((update_game s rnd).g_ghosts.get j) := by
  have w0 : walls_kept (pacman_part s).g_map := by
    intro c r
    rw [pacman_part_walls]
    exact hw c r
  have g0 : ∀ j, ghost_inv ((pacman_part s).g_ghosts.get j) := by
    rw [(pacman_part_keeps s).2.1]; exact h
  have a0 := ghost_iter_ghosts_inv rnd _ 0 w0 g0
  have w1 : walls_kept (ghost_iter rnd (pacman_part s) 0).g_map := by
    rw [(ghost_iter_keeps rnd _ 0).1]; exact w0
  have a1 := ghost_iter_ghosts_inv rnd _ 1 w1 a0
  have w2 : walls_kept (ghost_iter rnd (ghost_iter rnd (pacman_part s) 0) 1).g_map := by
    rw [(ghost_iter_keeps rnd _ 1).1]; exact w1
  have a2 := ghost_iter_ghosts_inv rnd _ 2 w2 a1
  have w3 : walls_kept
      (ghost_iter rnd (ghost_iter rnd (ghost_iter rnd (pacman_part s) 0) 1) 2).g_map := by
    rw [(ghost_iter_keeps rnd _ 2).1]; exact w2
  have a3 := ghost_iter_ghosts_inv rnd _ 3 w3 a2
  rw [update_game_eq]
  exact a3

/-- In every state of a run every adversary is on an allowed cell centre or on its way to
one. -/
theorem reachable_ghosts_inv (s : Game) (hs : Reachable s) :
    ∀ j, ghost_inv (s.g_ghosts.get j) := by
  induction hs with
  | setup => exact reset_ghosts_inv _
  | input s events _ ih =>
    rw [(handle_input_keeps s events).2.2.2.2.2.1]
    exact ih
  | tick s rnd hs ih => exact update_game_ghosts_inv s rnd (reachable_inv s hs).1 ih
  | render s _ ih => exact ih

/-- An adversary that satisfies the invariant is below the top of the grid. -/
theorem ghost_inv_y (g : Ghost) (h : ghost_inv g) : 73 ≤ g.y := by
  rcases h with ⟨c, r, -, gy, hs⟩ | ⟨-, c, r, k, k1, k2, -, gy, hs⟩ |
    ⟨-, c, r, k, k1, k2, -, gy, hs⟩ | ⟨-, c, r, k, k1, k2, -, -, gy, hs⟩ |
    ⟨-, r, -, -, gy, hs⟩ | ⟨-, c, r, k, k1, k2, -, gy, hs⟩
  all_goals
    have hb := (safe_bounds _ _ _ hs).2.2.1
    omega

/-- From `x >= -12` and `y >= 60` on, the remainders are as the amended claim says. -/
theorem remainders_of_bounds (x y : Int) (hx : -12 ≤ x) (hy : 60 ≤ y) :
    remainders_but_margin x y := by
  unfold remainders_but_margin
  simp only [TILE_SIZE, SCOREBOARD_HEIGHT]
  rw [tmod_tile, tmod_tile, if_pos (by omega)]
  split_ifs <;> omega

theorem agent_inv_y (m : List (List Int)) (p : Pacman) (h : agent_inv m p) : 60 ≤ p.y := by
  rcases h with ⟨c, r, -, -, -, hy, hf, -⟩ | ⟨c, r, k, -, -, -, -, -, -, -, hy, hf1, -, -⟩ |
    ⟨c, r, k, -, hk0, -, -, -, hy, hf1, -, -⟩
  · have hb := cell_free_bounds m c r hf; omega
  · have hb := cell_free_bounds m c r hf1; omega
  · have hb := cell_free_bounds m c r hf1; omega

/-- C11, amended: in every state reachable from the `setup_game` state by `update_game`
ticks, each entity's position modulo tile size, computed as the code computes it with the C
remainder operator (`x % TILE_SIZE` and `(y - SCOREBOARD_HEIGHT) % TILE_SIZE`), is never
negative, except that `x % TILE_SIZE` is negative exactly while `x` is in the left
wraparound margin [-12, -1], where it equals `x`. -/
theorem remainders_in_run (s : Game) (hs : Reachable s) :
    remainders_but_margin s.g_pacman.x s.g_pacman.y ∧
    ∀ i : Fin 4, remainders_but_margin (s.g_ghosts.get i).x (s.g_ghosts.get i).y := by
  obtain ⟨hp, hg⟩ := reachable_x_ok s hs
  rw [x_ok_iff] at hp
  refine ⟨remainders_of_bounds _ _ hp.1 (agent_inv_y g_map_init _ (reachable_inv s hs).2), ?_⟩
  intro i
  have hi := hg i
  rw [x_ok_iff] at hi
  have hy := ghost_inv_y _ (reachable_ghosts_inv s hs i)
  exact remainders_of_bounds _ _ hi.1 (by omega)

/-- C11, amended, at the state after `setup_game` and one tick, for adversary 0. -/
theorem remainders_in_run_witness :
    remainders_but_margin
      ((update_game (setup_game g_initial) (fun _ => 0)).g_ghosts.get 0).x
      ((update_game (setup_game g_initial) (fun _ => 0)).g_ghosts.get 0).y :=
  (remainders_in_run _ (Reachable.tick _ _ Reachable.setup)).2 0

end PacGame
